import Mathlib

/-!
Verification development for the escrow batching agent
(src/Archive/src/agents/escrow_batching_agent.py).

The agent's stable storage maps (StableBTreeMap) are modelled as association
lists; `kvGet` and `kvInsert` reproduce get/insert-with-replacement semantics.
Python ints are modelled as Nat (Python integers are unbounded; the nat64
wrapper only checks bounds at the candid boundary, which no claim exercises).
The canister clock ic.time() is modelled as a Nat field `clock` of the state:
every storage key and timestamp the source interpolates ic.time() into is
modelled from that counter, and each exposed call advances it by one, which
reflects that distinct calls observe distinct times.  Payment keys
("payment_{time}_{hash}" in the source) are modelled as the Nat time; batch
keys ("batch_{merchant_id}_{time}") as the pair (merchant_id, time).
The randomized settlement outcome and the random gas figure of the source are
oracle parameters (connector_ok, gas_used) threaded through the calls, as the
spec directs for the connector collaborator.
-/

/-- Association list lookup, mirroring StableBTreeMap.get: the value of the
first entry with the given key. -/
def kvGet {κ α : Type} [DecidableEq κ] : List (κ × α) → κ → Option α
  | [], _ => none
  | e :: rest, k => if e.1 = k then some e.2 else kvGet rest k

/-- Association list insert, mirroring StableBTreeMap.insert: replaces the
first entry with the given key, or appends a new entry. -/
def kvInsert {κ α : Type} [DecidableEq κ] : List (κ × α) → κ → α → List (κ × α)
  | [], k, v => [(k, v)]
  | e :: rest, k, v => if e.1 = k then (k, v) :: rest else e :: kvInsert rest k v

/-- Pointwise transformation of every stored value, keys unchanged.  The
source expresses this as a loop over keys() that re-inserts a rebuilt record
for selected entries; with each key bound to one record that loop is exactly
this map. -/
def kvMapValues {κ α : Type} (f : α → α) (l : List (κ × α)) : List (κ × α) :=
  l.map (fun e => (e.1, f e.2))

/-- Sum of a Nat-valued function over all stored values. -/
def kvSumBy {κ α : Type} (f : α → Nat) (l : List (κ × α)) : Nat :=
  (l.map (fun e => f e.2)).sum

/-- Key of a payment record: the ic.time() value interpolated into
"payment_{time}_{hash}". -/
abbrev PaymentKey := Nat

/-- Key of a batch record: the merchant id and the ic.time() value
interpolated into "batch_{merchant_id}_{time}". -/
abbrev BatchId := String × Nat

/-- MerchantConfig record of the source.  The tier variant is modelled by its
tag string ("free" | "business" | "enterprise"). -/
structure MerchantConfig where
  merchant_id : String
  merchant_address : String
  api_key : String
  tier : String
  batching_enabled : Bool
  batch_frequency : String
  batch_day : Option Nat
  batch_time : String
  min_batch_amount : Nat
  max_batch_amount : Nat
  auto_settle : Bool
  created_at : Nat
  updated_at : Nat
  deriving DecidableEq

/-- BatchPayment record of the source. -/
structure BatchPayment where
  payment_id : PaymentKey
  merchant_id : String
  user_wallet : String
  amount : Nat
  currency : String
  timestamp : Nat
  status : String
  batch_id : Option BatchId
  transaction_hash : Option String
  error_message : Option String
  deriving DecidableEq

/-- Batch record of the source. -/
structure Batch where
  batch_id : BatchId
  merchant_id : String
  total_amount : Nat
  payment_count : Nat
  created_at : Nat
  scheduled_at : Nat
  settled_at : Option Nat
  status : String
  transaction_hash : Option String
  gas_used : Option Nat
  gas_cost : Option Nat
  error_message : Option String
  deriving DecidableEq

/-- EscrowPDA record of the source (the EscrowAccount of the spec). -/
structure EscrowPDA where
  pda_address : String
  merchant_id : String
  total_balance : Nat
  pending_batches : Nat
  created_at : Nat
  last_settlement : Option Nat
  is_active : Bool
  deriving DecidableEq

/-- BatchingMetrics record of the source. -/
structure BatchingMetrics where
  total_batches_processed : Nat
  total_volume_batched : Nat
  gas_cost_savings : Nat
  average_batch_size : Nat
  merchants_active : Nat
  pending_amount : Nat
  settlement_success_rate : Nat
  deriving DecidableEq

/-- SettleConfig record of the source. -/
structure SettleConfig where
  max_gas_price : Nat
  priority_fee : Nat
  retry_attempts : Nat
  settlement_timeout : Nat
  emergency_pause : Bool
  deriving DecidableEq

/-- The five stable storages of the canister plus the logical clock.  The
settle_config storage only ever holds the key "default", so it is modelled as
an Option. -/
structure AgentState where
  merchant_configs : List (String × MerchantConfig)
  batch_payments : List (PaymentKey × BatchPayment)
  batches : List (BatchId × Batch)
  escrow_pdas : List (String × EscrowPDA)
  settle_config : Option SettleConfig
  clock : Nat
  deriving DecidableEq

/-- DEFAULT_SETTLE_CONFIG of the source. -/
def DEFAULT_SETTLE_CONFIG : SettleConfig :=
  { max_gas_price := 100000
    priority_fee := 1000
    retry_attempts := 3
    settlement_timeout := 300
    emergency_pause := false }

/-- State right after canister_init(): empty storages, default settle config. -/
def init_state : AgentState :=
  { merchant_configs := []
    batch_payments := []
    batches := []
    escrow_pdas := []
    settle_config := some DEFAULT_SETTLE_CONFIG
    clock := 0 }

/-- detect_api_tier of the source: prefix match on the api key.  The
str.startswith tests are modelled on the character lists of the strings. -/
def detect_api_tier (api_key : String) : String :=
  if ("ouro_enterprise_".data).isPrefixOf api_key.data then "enterprise"
  else if ("ouro_business_".data).isPrefixOf api_key.data then "business"
  else "free"

/-- should_use_escrow of the source. -/
def should_use_escrow (api_key : String) : Bool :=
  let tier := detect_api_tier api_key
  if tier = "free" then false
  else if tier = "business" ∨ tier = "enterprise" then true
  else false

/-- create_or_get_escrow_pda of the source: returns the state holding the
(possibly fresh) PDA for the merchant. -/
def create_or_get_escrow_pda (s : AgentState) (merchant_id : String) : AgentState :=
  match kvGet s.escrow_pdas merchant_id with
  | some _ => s
  | none =>
      let new_pda : EscrowPDA :=
        { pda_address := "escrow_pda_" ++ merchant_id ++ "_" ++ toString s.clock
          merchant_id := merchant_id
          total_balance := 0
          pending_batches := 0
          created_at := s.clock
          last_settlement := none
          is_active := true }
      { s with escrow_pdas := kvInsert s.escrow_pdas merchant_id new_pda }

/-- Pending payments of a merchant, as collected by the keys() loops of
should_create_batch and create_batch_for_merchant. -/
def pending_payments_for (s : AgentState) (merchant_id : String) : List BatchPayment :=
  (s.batch_payments.filter
    (fun e => decide (e.2.merchant_id = merchant_id ∧ e.2.status = "pending"))).map
    (fun e => e.2)

/-- should_create_batch of the source. -/
def should_create_batch (s : AgentState) (merchant_id : String) : Bool :=
  match kvGet s.merchant_configs merchant_id with
  | none => false
  | some config =>
    if !config.batching_enabled then false
    else
      let pending := pending_payments_for s merchant_id
      if pending.length = 0 then false
      else
        let total_amount := (pending.map (fun p => p.amount)).sum
        if total_amount < config.min_batch_amount then false
        else if config.max_batch_amount ≤ total_amount then true
        else decide (3 ≤ pending.length)

/-- Default MerchantConfig built by process_payment on first contact. -/
def default_merchant_config (merchant_id merchant_address api_key : String)
    (now : Nat) : MerchantConfig :=
  { merchant_id := merchant_id
    merchant_address := merchant_address
    api_key := api_key
    tier := detect_api_tier api_key
    batching_enabled := should_use_escrow api_key
    batch_frequency := "daily"
    batch_day := none
    batch_time := "14:00"
    min_batch_amount := 100000000
    max_batch_amount := 10000000000
    auto_settle := true
    created_at := now
    updated_at := now }

/-- The Batch record constructed by create_batch_for_merchant. -/
def new_batch (batch_id : BatchId) (merchant_id : String) (total_amount payment_count now : Nat) :
    Batch :=
  { batch_id := batch_id
    merchant_id := merchant_id
    total_amount := total_amount
    payment_count := payment_count
    created_at := now
    scheduled_at := now
    settled_at := none
    status := "pending"
    transaction_hash := none
    gas_used := none
    gas_cost := none
    error_message := none }

/-- Creation step of create_batch_for_merchant: insert the batch, move every
pending payment of the merchant to batched with the batch id set, and credit
the escrow PDA.  Returns the new batch id with the updated state.  The
auto-settle step of the source follows this (see create_batch_for_merchant). -/
def create_batch_apply (s : AgentState) (merchant_id : String) : BatchId × AgentState :=
  let pending := pending_payments_for s merchant_id
  let total_amount := (pending.map (fun p => p.amount)).sum
  let batch_id : BatchId := (merchant_id, s.clock)
  let batch := new_batch batch_id merchant_id total_amount pending.length s.clock
  let s1 := { s with batches := kvInsert s.batches batch_id batch }
  let payments2 := kvMapValues
      (fun p => if p.merchant_id = merchant_id ∧ p.status = "pending" then
          { p with status := "batched", batch_id := some batch_id }
        else p) s1.batch_payments
  let s2 := { s1 with batch_payments := payments2 }
  let s3 :=
    match kvGet s2.escrow_pdas merchant_id with
    | none => s2
    | some pda =>
        let pda2 := { pda with total_balance := pda.total_balance + total_amount,
                               pending_batches := pda.pending_batches + 1 }
        { s2 with escrow_pdas := kvInsert s2.escrow_pdas merchant_id pda2 }
  (batch_id, s3)

/-- Processing-state batch stored before the connector call. -/
def settle_processing_batch (batch : Batch) (now : Nat) : Batch :=
  { batch with settled_at := some now
               status := "processing"
               gas_used := none
               gas_cost := none }

/-- Final batch stored on connector success.  The source rebuilds this record
from the pre-processing snapshot (the local variable batch fetched before the
processing update), so settled_at reverts to its pre-call value. -/
def settle_final_batch (batch : Batch) (batch_id : BatchId) (now gas_used : Nat) : Batch :=
  { batch with settled_at := batch.settled_at
               status := "settled"
               transaction_hash := some ("settle_tx_" ++ batch_id.1 ++ "_" ++ toString now)
               gas_used := some gas_used
               gas_cost := some (gas_used * 25)
               error_message := none }

/-- Failed batch stored on connector failure, also rebuilt from the
pre-processing snapshot. -/
def settle_failed_batch (batch : Batch) : Batch :=
  { batch with status := "failed"
               transaction_hash := none
               gas_used := none
               gas_cost := none
               error_message := some "Settlement transaction failed" }

/-- PDA update on successful settlement: balance and pending-batch count are
clamped at zero exactly as max(nat64(0), ...) does in the source, and
last_settlement copies batch.settled_at of the pre-processing snapshot. -/
def settled_pda (pda : EscrowPDA) (batch : Batch) : EscrowPDA :=
  { pda with
      total_balance := (max 0 ((pda.total_balance : Int) - (batch.total_amount : Int))).toNat
      pending_batches := (max 0 ((pda.pending_batches : Int) - 1)).toNat
      last_settlement := batch.settled_at }

/-- Emergency-pause test of settle_batch: from the "default" settle config if
present. -/
def emergency_paused (s : AgentState) : Bool :=
  match s.settle_config with
  | some config => config.emergency_pause
  | none => false

/-- State produced by the success branch of settle_batch. -/
def settle_success_state (s : AgentState) (batch_id : BatchId) (batch : Batch)
    (gas_used : Nat) : AgentState :=
  let final_batch := settle_final_batch batch batch_id s.clock gas_used
  let batches2 :=
    kvInsert (kvInsert s.batches batch_id (settle_processing_batch batch s.clock))
      batch_id final_batch
  let s2 := { s with batches := batches2 }
  let payments2 := kvMapValues
      (fun p => if p.batch_id = some batch_id then
          { p with status := "settled", transaction_hash := final_batch.transaction_hash }
        else p) s2.batch_payments
  let s3 := { s2 with batch_payments := payments2 }
  match kvGet s3.escrow_pdas batch.merchant_id with
  | none => s3
  | some pda =>
      { s3 with escrow_pdas :=
          kvInsert s3.escrow_pdas batch.merchant_id (settled_pda pda batch) }

/-- State produced by the failure branch of settle_batch. -/
def settle_failure_state (s : AgentState) (batch_id : BatchId) (batch : Batch) : AgentState :=
  let batches2 :=
    kvInsert (kvInsert s.batches batch_id (settle_processing_batch batch s.clock))
      batch_id (settle_failed_batch batch)
  { s with batches := batches2 }

/-- settle_batch of the source.  connector_ok replaces the random 98 percent
success draw and gas_used the random gas figure. -/
def settle_batch (s : AgentState) (batch_id : BatchId) (connector_ok : Bool)
    (gas_used : Nat) : Bool × AgentState :=
  match kvGet s.batches batch_id with
  | none => (false, s)
  | some batch =>
    if batch.status ≠ "pending" then (false, s)
    else if emergency_paused s then (false, s)
    else if connector_ok then (true, settle_success_state s batch_id batch gas_used)
    else (false, settle_failure_state s batch_id batch)

/-- create_batch_for_merchant of the source.  The connector oracle parameters
are passed through to the auto-settle call. -/
def create_batch_for_merchant (s : AgentState) (merchant_id : String)
    (connector_ok : Bool) (gas_used : Nat) : String × AgentState :=
  match kvGet s.merchant_configs merchant_id with
  | none => ("merchant_not_found", s)
  | some config =>
    if (pending_payments_for s merchant_id).length = 0 then ("no_pending_payments", s)
    else
      let r := create_batch_apply s merchant_id
      if config.auto_settle then
        ("batch_" ++ merchant_id ++ "_" ++ toString s.clock,
          (settle_batch r.2 r.1 connector_ok gas_used).2)
      else
        ("batch_" ++ merchant_id ++ "_" ++ toString s.clock, r.2)

/-- The payment record built on the escrow path of process_payment. -/
def escrow_payment (payment_id : PaymentKey) (merchant_id user_wallet : String)
    (amount now : Nat) : BatchPayment :=
  { payment_id := payment_id
    merchant_id := merchant_id
    user_wallet := user_wallet
    amount := amount
    currency := "USDC"
    timestamp := now
    status := "pending"
    batch_id := none
    transaction_hash := none
    error_message := none }

/-- The payment record built on the direct (free-tier) path of
process_payment. -/
def direct_payment (payment_id : PaymentKey) (merchant_id user_wallet : String)
    (amount now : Nat) : BatchPayment :=
  { payment_id := payment_id
    merchant_id := merchant_id
    user_wallet := user_wallet
    amount := amount
    currency := "USDC"
    timestamp := now
    status := "settled"
    batch_id := none
    transaction_hash := some ("direct_tx_" ++ toString payment_id)
    error_message := none }

/-- Config-creation step of process_payment: store a tier-derived default
config on first contact with a merchant. -/
def ensure_merchant_config (s : AgentState) (merchant_id merchant_address api_key : String) :
    AgentState :=
  match kvGet s.merchant_configs merchant_id with
  | some _ => s
  | none =>
      let configs2 := kvInsert s.merchant_configs merchant_id
          (default_merchant_config merchant_id merchant_address api_key s.clock)
      { s with merchant_configs := configs2 }

/-- Storage insert of one payment record. -/
def insert_payment (s : AgentState) (k : PaymentKey) (p : BatchPayment) : AgentState :=
  { s with batch_payments := kvInsert s.batch_payments k p }

/-- process_payment of the source.  The payment_data dict fields are explicit
parameters; the connector oracle parameters feed a possible auto-settled batch
creation. -/
def process_payment (s : AgentState) (api_key merchant_id user_wallet merchant_address : String)
    (amount : Nat) (connector_ok : Bool) (gas_used : Nat) : String × AgentState :=
  let s0 := ensure_merchant_config s merchant_id merchant_address api_key
  let payment_id : PaymentKey := s.clock
  if should_use_escrow api_key then
    let s1 := create_or_get_escrow_pda s0 merchant_id
    let s2 := insert_payment s1 payment_id
        (escrow_payment payment_id merchant_id user_wallet amount s.clock)
    let s3 :=
      if should_create_batch s2 merchant_id then
        (create_batch_for_merchant s2 merchant_id connector_ok gas_used).2
      else s2
    ("escrow_batched_payment_" ++ toString payment_id, s3)
  else
    ("direct_settled_payment_" ++ toString payment_id,
      insert_payment s0 payment_id
        (direct_payment payment_id merchant_id user_wallet amount s.clock))

/-- Partial update payload of update_merchant_config: config_data.get(field,
existing default) is modelled by Option fields. -/
structure ConfigUpdate where
  batching_enabled : Option Bool
  batch_frequency : Option String
  batch_time : Option String
  min_batch_amount : Option Nat
  max_batch_amount : Option Nat
  auto_settle : Option Bool
  deriving DecidableEq

/-- The rebuilt MerchantConfig record of update_merchant_config: the six
updatable fields fall back to the stored values, identity fields are copied,
updated_at is stamped with the current time. -/
def updated_config (merchant_id : String) (existing_config : MerchantConfig)
    (config_data : ConfigUpdate) (now : Nat) : MerchantConfig :=
  { merchant_id := merchant_id
    merchant_address := existing_config.merchant_address
    api_key := existing_config.api_key
    tier := existing_config.tier
    batching_enabled := config_data.batching_enabled.getD existing_config.batching_enabled
    batch_frequency := config_data.batch_frequency.getD existing_config.batch_frequency
    batch_day := existing_config.batch_day
    batch_time := config_data.batch_time.getD existing_config.batch_time
    min_batch_amount := config_data.min_batch_amount.getD existing_config.min_batch_amount
    max_batch_amount := config_data.max_batch_amount.getD existing_config.max_batch_amount
    auto_settle := config_data.auto_settle.getD existing_config.auto_settle
    created_at := existing_config.created_at
    updated_at := now }

/-- update_merchant_config of the source. -/
def update_merchant_config (s : AgentState) (merchant_id : String) (config_data : ConfigUpdate) :
    Bool × AgentState :=
  match kvGet s.merchant_configs merchant_id with
  | none => (false, s)
  | some existing_config =>
      let configs2 := kvInsert s.merchant_configs merchant_id
        (updated_config merchant_id existing_config config_data s.clock)
      (true, { s with merchant_configs := configs2 })

/-!
IEEE-754 binary64 model for the float arithmetic of get_batching_metrics.

Python evaluates int((settled_batches / max(1, total_batches)) * 10000) in
double precision: true division of two ints yields the correctly rounded
(nearest, ties to even) binary64 quotient, the multiplication by 10000 is
again correctly rounded, and int() truncates toward zero.  A nonnegative
binary64 value in the normal range is m * 2^e with 2^52 ≤ m < 2^53 (or zero);
batch counts keep every intermediate value far inside the normal range, so
subnormals and overflow never arise here.
-/

/-- Nonnegative binary64 value m * 2^e with m = 0, or 2^52 ≤ m < 2^53. -/
structure Fp where
  m : Nat
  e : Int
  deriving DecidableEq

/-- Scale the fraction a/b by powers of two, adjusting the exponent to keep
(a/b) * 2^e fixed, until a/b lands in [2^52, 2^53).  Fuel-bounded structural
loop so that it reduces in the kernel; the fuel covers the whole binary64
exponent range many times over. -/
def fpNormalize : Nat → Nat → Nat → Int → Nat × Nat × Int
  | 0, a, b, e => (a, b, e)
  | fuel + 1, a, b, e =>
      if a < 4503599627370496 * b then fpNormalize fuel (2 * a) b (e - 1)
      else if 9007199254740992 * b ≤ a then fpNormalize fuel a (2 * b) (e + 1)
      else (a, b, e)

/-- Round the rational a/b (for b ≠ 0) to the nearest binary64, ties to even:
normalize the fraction into [2^52, 2^53), take the integer part, and round on
the remainder (halfway goes to the even mantissa); a carry to 2^53 bumps the
exponent. -/
def fpRound (a b : Nat) : Fp :=
  if a = 0 then ⟨0, 0⟩
  else
    let n := fpNormalize 4200 a b 0
    let q := n.1 / n.2.1
    let r := n.1 % n.2.1
    let m :=
      if 2 * r < n.2.1 then q
      else if n.2.1 < 2 * r then q + 1
      else if q % 2 = 0 then q else q + 1
    if m = 9007199254740992 then ⟨4503599627370496, n.2.2 + 1⟩ else ⟨m, n.2.2⟩

/-- Correctly rounded binary64 product of a binary64 value and a natural
number (10000 here): the product m * k is exact as a scaled integer, so one
rounding of that integer gives the rounded product. -/
def fpMulNat (x : Fp) (k : Nat) : Fp :=
  if x.m = 0 ∨ k = 0 then ⟨0, 0⟩
  else
    let r := fpRound (x.m * k) 1
    ⟨r.m, r.e + x.e⟩

/-- int() truncation of a nonnegative binary64 value. -/
def fpToNat (x : Fp) : Nat :=
  if 0 ≤ x.e then x.m * 2 ^ x.e.toNat else x.m / 2 ^ (-x.e).toNat

/-- int((settled / max(1, total)) * 10000) exactly as Python computes it in
binary64 arithmetic. -/
def py_success_rate_bp (settled total : Nat) : Nat :=
  fpToNat (fpMulNat (fpRound settled (max 1 total)) 10000)

/-- get_batching_metrics of the source.  The success rate is Python's
int((settled_batches / max(1, total_batches)) * 10000), computed through
binary64 float arithmetic modelled by py_success_rate_bp; the average batch
size uses Python's integer floor division directly. -/
def get_batching_metrics (s : AgentState) : BatchingMetrics :=
  let all_batches := s.batches.map (fun e => e.2)
  let total_batches := all_batches.length
  let settled_batches := (all_batches.filter (fun b => decide (b.status = "settled"))).length
  let total_volume := (all_batches.map (fun b => b.total_amount)).sum
  let pending_volume :=
    ((all_batches.filter (fun b => decide (b.status = "pending"))).map
      (fun b => b.total_amount)).sum
  let avg_batch_size := total_volume / max 1 total_batches
  let success_rate := py_success_rate_bp settled_batches total_batches
  let active_merchants := (s.merchant_configs.filter (fun e => e.2.batching_enabled)).length
  { total_batches_processed := total_batches
    total_volume_batched := total_volume
    gas_cost_savings := 50000
    average_batch_size := avg_batch_size
    merchants_active := active_merchants
    pending_amount := pending_volume
    settlement_success_rate := success_rate }

/-- get_escrow_balance of the source. -/
def get_escrow_balance (s : AgentState) (merchant_id : String) : Nat :=
  match kvGet s.escrow_pdas merchant_id with
  | some pda => pda.total_balance
  | none => 0

/-- Exposed mutating calls the reachability claims quantify over, carrying the
connector oracle inputs of each call. -/
inductive Op where
  | processPayment (api_key merchant_id user_wallet merchant_address : String)
      (amount : Nat) (connector_ok : Bool) (gas_used : Nat)
  | createBatch (merchant_id : String) (connector_ok : Bool) (gas_used : Nat)
  | settleBatch (batch_id : BatchId) (connector_ok : Bool) (gas_used : Nat)

/-- State transformer of one call, before the clock advances. -/
def apply_op (s : AgentState) : Op → AgentState
  | Op.processPayment k m w a amt ok g => (process_payment s k m w a amt ok g).2
  | Op.createBatch m ok g => (create_batch_for_merchant s m ok g).2
  | Op.settleBatch b ok g => (settle_batch s b ok g).2

/-- One exposed call: run it, then advance the clock (distinct calls observe
distinct ic.time() values). -/
def step (s : AgentState) (op : Op) : AgentState :=
  let s1 := apply_op s op
  { s1 with clock := s1.clock + 1 }

/-- States reachable from canister initialization by the exposed calls. -/
inductive Reachable : AgentState → Prop
  | init : Reachable init_state
  | next {s : AgentState} (h : Reachable s) (op : Op) : Reachable (step s op)

/-! Association-list lemmas. -/

theorem kvGet_kvInsert_self {κ α : Type} [DecidableEq κ] (l : List (κ × α)) (k : κ) (v : α) :
    kvGet (kvInsert l k v) k = some v := by
  induction l with
  | nil => simp [kvGet, kvInsert]
  | cons e rest ih =>
      by_cases h : e.1 = k
      · simp [kvInsert, h, kvGet]
      · simp [kvInsert, h, kvGet, ih]

theorem kvGet_kvInsert_ne {κ α : Type} [DecidableEq κ] (l : List (κ × α)) {k k' : κ} (v : α)
    (h : k' ≠ k) : kvGet (kvInsert l k v) k' = kvGet l k' := by
  have hk : ¬k = k' := fun h2 => h h2.symm
  induction l with
  | nil => simp [kvGet, kvInsert, hk]
  | cons e rest ih =>
      by_cases he : e.1 = k
      · have he' : ¬e.1 = k' := by rw [he]; exact hk
        simp [kvInsert, he, kvGet, hk, he']
      · by_cases he' : e.1 = k'
        · simp [kvInsert, he, kvGet, he', hk, h]
        · simp [kvInsert, he, kvGet, he', hk, h, ih]

theorem kvInsert_kvInsert_self {κ α : Type} [DecidableEq κ] (l : List (κ × α)) (k : κ)
    (v w : α) : kvInsert (kvInsert l k v) k w = kvInsert l k w := by
  induction l with
  | nil => simp [kvInsert]
  | cons e rest ih =>
      by_cases h : e.1 = k
      · simp [kvInsert, h]
      · simp [kvInsert, h, ih]

theorem kvGet_kvMapValues {κ α : Type} [DecidableEq κ] (f : α → α) (l : List (κ × α)) (k : κ) :
    kvGet (kvMapValues f l) k = (kvGet l k).map f := by
  induction l with
  | nil => simp [kvGet, kvMapValues]
  | cons e rest ih =>
      by_cases h : e.1 = k
      · simp [kvMapValues, kvGet, h]
      · simpa [kvMapValues, kvGet, h] using ih

theorem keys_kvMapValues {κ α : Type} (f : α → α) (l : List (κ × α)) :
    (kvMapValues f l).map Prod.fst = l.map Prod.fst := by
  simp [kvMapValues, List.map_map]

theorem mem_kvInsert {κ α : Type} [DecidableEq κ] {l : List (κ × α)} {k : κ} {v : α}
    {e : κ × α} (h : e ∈ kvInsert l k v) : e = (k, v) ∨ e ∈ l := by
  induction l with
  | nil => simpa [kvInsert] using h
  | cons e0 rest ih =>
      by_cases he : e0.1 = k
      · simp only [kvInsert, he, if_pos] at h
        rcases List.mem_cons.mp h with h1 | h1
        · exact Or.inl h1
        · exact Or.inr (List.mem_cons_of_mem _ h1)
      · simp only [kvInsert, he, if_neg, not_false_iff] at h
        rcases List.mem_cons.mp h with h1 | h1
        · exact Or.inr (h1 ▸ List.mem_cons_self _ _)
        · rcases ih h1 with h2 | h2
          · exact Or.inl h2
          · exact Or.inr (List.mem_cons_of_mem _ h2)

theorem kvGet_mem {κ α : Type} [DecidableEq κ] {l : List (κ × α)} {k : κ} {v : α}
    (h : kvGet l k = some v) : (k, v) ∈ l := by
  induction l with
  | nil => simp [kvGet] at h
  | cons e rest ih =>
      by_cases he : e.1 = k
      · simp only [kvGet, he, if_pos] at h
        have : e = (k, v) := by
          cases e
          simp_all
        exact this ▸ List.mem_cons_self _ _
      · simp only [kvGet, he, if_neg, not_false_iff] at h
        exact List.mem_cons_of_mem _ (ih h)

theorem kvInsert_of_get_none {κ α : Type} [DecidableEq κ] {l : List (κ × α)} {k : κ} (v : α)
    (h : kvGet l k = none) : kvInsert l k v = l ++ [(k, v)] := by
  induction l with
  | nil => simp [kvInsert]
  | cons e rest ih =>
      by_cases he : e.1 = k
      · simp [kvGet, he] at h
      · simp only [kvGet, he, if_neg, not_false_iff] at h
        simp [kvInsert, he, ih h]

theorem keys_kvInsert_of_get_some {κ α : Type} [DecidableEq κ] {l : List (κ × α)} {k : κ}
    {v0 : α} (v : α) (h : kvGet l k = some v0) :
    (kvInsert l k v).map Prod.fst = l.map Prod.fst := by
  induction l with
  | nil => simp [kvGet] at h
  | cons e rest ih =>
      by_cases he : e.1 = k
      · simp [kvInsert, he]
      · simp only [kvGet, he, if_neg, not_false_iff] at h
        simp [kvInsert, he, ih h]

theorem kvGet_ne_none_kvInsert {κ α : Type} [DecidableEq κ] (l : List (κ × α)) (k m : κ)
    (v : α) (h : kvGet l m ≠ none) : kvGet (kvInsert l k v) m ≠ none := by
  by_cases hm : m = k
  · rw [hm, kvGet_kvInsert_self]
    simp
  · rw [kvGet_kvInsert_ne l v hm]
    exact h

theorem kvSumBy_cons {κ α : Type} (f : α → Nat) (e : κ × α) (l : List (κ × α)) :
    kvSumBy f (e :: l) = f e.2 + kvSumBy f l := by
  simp [kvSumBy]

theorem kvSumBy_kvInsert {κ α : Type} [DecidableEq κ] (f : α → Nat) {l : List (κ × α)}
    {k : κ} {v0 : α} (v : α) (h : kvGet l k = some v0) :
    kvSumBy f (kvInsert l k v) + f v0 = kvSumBy f l + f v := by
  induction l with
  | nil => simp [kvGet] at h
  | cons e rest ih =>
      by_cases he : e.1 = k
      · simp only [kvGet, he, if_pos, Option.some_inj] at h
        subst h
        simp only [kvInsert, he, if_pos, kvSumBy_cons]
        omega
      · simp only [kvGet, he, if_neg, not_false_iff] at h
        simp only [kvInsert, he, if_neg, not_false_iff, kvSumBy_cons]
        have := ih h
        omega

theorem le_kvSumBy {κ α : Type} [DecidableEq κ] (f : α → Nat) {l : List (κ × α)} {k : κ}
    {v0 : α} (h : kvGet l k = some v0) : f v0 ≤ kvSumBy f l := by
  induction l with
  | nil => simp [kvGet] at h
  | cons e rest ih =>
      by_cases he : e.1 = k
      · simp only [kvGet, he, if_pos, Option.some_inj] at h
        subst h
        simp [kvSumBy_cons]
      · simp only [kvGet, he, if_neg, not_false_iff] at h
        have := ih h
        simp only [kvSumBy_cons]
        omega

theorem kvSumBy_append {κ α : Type} (f : α → Nat) (l l2 : List (κ × α)) :
    kvSumBy f (l ++ l2) = kvSumBy f l + kvSumBy f l2 := by
  simp [kvSumBy]

theorem kvSumBy_congr {κ α : Type} (f g : α → Nat) (l : List (κ × α))
    (h : ∀ e ∈ l, f e.2 = g e.2) : kvSumBy f l = kvSumBy g l := by
  induction l with
  | nil => rfl
  | cons e rest ih =>
      simp only [kvSumBy_cons]
      rw [h e (List.mem_cons_self _ _), ih (fun e2 he2 => h e2 (List.mem_cons_of_mem _ he2))]

theorem kvSumBy_eq_zero {κ α : Type} (f : α → Nat) (l : List (κ × α))
    (h : ∀ e ∈ l, f e.2 = 0) : kvSumBy f l = 0 := by
  induction l with
  | nil => rfl
  | cons e rest ih =>
      simp only [kvSumBy_cons]
      rw [h e (List.mem_cons_self _ _), ih (fun e2 he2 => h e2 (List.mem_cons_of_mem _ he2))]

theorem mem_kvMapValues {κ α : Type} {f : α → α} {l : List (κ × α)} {e : κ × α}
    (h : e ∈ kvMapValues f l) : ∃ e0, e0 ∈ l ∧ e = (e0.1, f e0.2) := by
  rcases List.mem_map.mp h with ⟨e0, he0, heq⟩
  exact ⟨e0, he0, heq.symm⟩

/-! Invariant of the reachable states. -/

/-- Payment statuses the operations ever store (payments are never marked
failed by this agent; the spec's four-status domain is a superset). -/
def paymentStatusSet (st : String) : Prop :=
  st = "pending" ∨ st = "batched" ∨ st = "settled"

/-- Batch statuses the operations ever store. -/
def batchStatusSet (st : String) : Prop :=
  st = "pending" ∨ st = "processing" ∨ st = "settled" ∨ st = "failed"

/-- Balance committed for a merchant: total over the batches of that merchant
that have not settled successfully (the escrow PDA balance is debited only on
connector success). -/
def committed_open (s : AgentState) (m : String) : Nat :=
  kvSumBy (fun b => if b.merchant_id = m ∧ b.status ≠ "settled" then b.total_amount else 0)
    s.batches

/-- Total over the merchant's batches in Pending or Processing status, the
quantity named by the spec's escrow balance invariant. -/
def committed_pending_processing (s : AgentState) (m : String) : Nat :=
  kvSumBy (fun b =>
      if b.merchant_id = m ∧ (b.status = "pending" ∨ b.status = "processing")
      then b.total_amount else 0)
    s.batches

/-- Total over the merchant's batches in Pending, Processing or Failed status. -/
def committed_unsettled (s : AgentState) (m : String) : Nat :=
  kvSumBy (fun b =>
      if b.merchant_id = m ∧ (b.status = "pending" ∨ b.status = "processing" ∨ b.status = "failed")
      then b.total_amount else 0)
    s.batches

/-- Structural invariant maintained by every exposed call. -/
structure InvCore (s : AgentState) : Prop where
  status_ok : ∀ e ∈ s.batch_payments, paymentStatusSet e.2.status
  pending_no_batch : ∀ e ∈ s.batch_payments, e.2.status = "pending" → e.2.batch_id = none
  batch_link_status : ∀ e ∈ s.batch_payments, e.2.batch_id ≠ none →
      e.2.status = "batched" ∨ e.2.status = "settled"
  batch_status_ok : ∀ e ∈ s.batches, batchStatusSet e.2.status
  pending_has_pda : ∀ e ∈ s.batch_payments, e.2.status = "pending" →
      kvGet s.escrow_pdas e.2.merchant_id ≠ none
  batch_has_pda : ∀ e ∈ s.batches, kvGet s.escrow_pdas e.2.merchant_id ≠ none
  balance_eq : ∀ m pda, kvGet s.escrow_pdas m = some pda →
      pda.total_balance = committed_open s m

/-- Keys stored so far come from earlier clock values. -/
def KeysLt (s : AgentState) (c : Nat) : Prop :=
  (∀ e ∈ s.batch_payments, e.1 < c) ∧ (∀ e ∈ s.batches, e.1.2 < c)

/-- Full invariant. -/
def AgentInv (s : AgentState) : Prop := InvCore s ∧ KeysLt s s.clock

/-- Forward movement of a payment status over one exposed call: unchanged, or
one of the transitions Pending to Batched, Batched to Settled, or it passes
through both within the call (batch creation with synchronous auto-settle). -/
def statusForward (a b : String) : Prop :=
  a = b ∨ (a = "pending" ∧ (b = "batched" ∨ b = "settled")) ∨ (a = "batched" ∧ b = "settled")

theorem statusForward_refl (a : String) : statusForward a a := Or.inl rfl

theorem statusForward_trans {a b c : String} (h1 : statusForward a b)
    (h2 : statusForward b c) : statusForward a c := by
  rcases h1 with h1 | ⟨ha, h1⟩ | ⟨ha, h1⟩
  · exact h1 ▸ h2
  · rcases h1 with h1 | h1 <;> subst h1 <;> subst ha
    · rcases h2 with h2 | ⟨hb, _⟩ | ⟨_, hb⟩
      · exact Or.inr (Or.inl ⟨rfl, Or.inl h2.symm⟩)
      · exact absurd hb (by decide)
      · exact Or.inr (Or.inl ⟨rfl, Or.inr hb⟩)
    · rcases h2 with h2 | ⟨hb, _⟩ | ⟨hb, _⟩
      · exact Or.inr (Or.inl ⟨rfl, Or.inr h2.symm⟩)
      · exact absurd hb (by decide)
      · exact absurd hb (by decide)
  · subst h1
    subst ha
    rcases h2 with h2 | ⟨hb, _⟩ | ⟨hb, _⟩
    · exact Or.inr (Or.inr ⟨rfl, h2.symm⟩)
    · exact absurd hb (by decide)
    · exact absurd hb (by decide)

/-- Per-key forward movement between two payment storages. -/
def PayForward (l l' : List (PaymentKey × BatchPayment)) : Prop :=
  ∀ k p, kvGet l k = some p → ∃ p', kvGet l' k = some p' ∧ statusForward p.status p'.status

theorem PayForward_refl (l : List (PaymentKey × BatchPayment)) : PayForward l l :=
  fun _ p h => ⟨p, h, statusForward_refl _⟩

theorem PayForward_trans {l1 l2 l3 : List (PaymentKey × BatchPayment)}
    (h1 : PayForward l1 l2) (h2 : PayForward l2 l3) : PayForward l1 l3 := by
  intro k p hp
  rcases h1 k p hp with ⟨q, hq, hf1⟩
  rcases h2 k q hq with ⟨r, hr, hf2⟩
  exact ⟨r, hr, statusForward_trans hf1 hf2⟩

/-! Characterization of the settle_batch branch states. -/

theorem sss_clock (s : AgentState) (bid : BatchId) (batch : Batch) (g : Nat) :
    (settle_success_state s bid batch g).clock = s.clock := by
  simp only [settle_success_state]
  split <;> rfl

theorem sss_configs (s : AgentState) (bid : BatchId) (batch : Batch) (g : Nat) :
    (settle_success_state s bid batch g).merchant_configs = s.merchant_configs := by
  simp only [settle_success_state]
  split <;> rfl

theorem sss_settle_config (s : AgentState) (bid : BatchId) (batch : Batch) (g : Nat) :
    (settle_success_state s bid batch g).settle_config = s.settle_config := by
  simp only [settle_success_state]
  split <;> rfl

theorem sss_payments (s : AgentState) (bid : BatchId) (batch : Batch) (g : Nat) :
    (settle_success_state s bid batch g).batch_payments =
      kvMapValues (fun p => if p.batch_id = some bid then
          { p with status := "settled",
                   transaction_hash := (settle_final_batch batch bid s.clock g).transaction_hash }
        else p) s.batch_payments := by
  simp only [settle_success_state]
  split <;> rfl

theorem sss_batches (s : AgentState) (bid : BatchId) (batch : Batch) (g : Nat) :
    (settle_success_state s bid batch g).batches =
      kvInsert s.batches bid (settle_final_batch batch bid s.clock g) := by
  simp only [settle_success_state]
  split <;> simp [kvInsert_kvInsert_self]

theorem sss_pdas_some (s : AgentState) (bid : BatchId) (batch : Batch) (g : Nat)
    {pda : EscrowPDA} (hpo : kvGet s.escrow_pdas batch.merchant_id = some pda) :
    (settle_success_state s bid batch g).escrow_pdas =
      kvInsert s.escrow_pdas batch.merchant_id (settled_pda pda batch) := by
  simp only [settle_success_state]
  split
  · rename_i heq
    rw [hpo] at heq
    cases heq
  · rename_i pda2 heq
    rw [hpo] at heq
    cases heq
    rfl

theorem sss_pdas_none (s : AgentState) (bid : BatchId) (batch : Batch) (g : Nat)
    (hpo : kvGet s.escrow_pdas batch.merchant_id = none) :
    (settle_success_state s bid batch g).escrow_pdas = s.escrow_pdas := by
  simp only [settle_success_state]
  split
  · rfl
  · rename_i pda2 heq
    rw [hpo] at heq
    cases heq

theorem sss_pdas_ne_none (s : AgentState) (bid : BatchId) (batch : Batch) (g : Nat)
    (m : String) (h : kvGet s.escrow_pdas m ≠ none) :
    kvGet (settle_success_state s bid batch g).escrow_pdas m ≠ none := by
  rcases hpo : kvGet s.escrow_pdas batch.merchant_id with _ | pda
  · rw [sss_pdas_none s bid batch g hpo]
    exact h
  · rw [sss_pdas_some s bid batch g hpo]
    exact kvGet_ne_none_kvInsert _ _ _ _ h

theorem sfs_clock (s : AgentState) (bid : BatchId) (batch : Batch) :
    (settle_failure_state s bid batch).clock = s.clock := rfl

theorem sfs_configs (s : AgentState) (bid : BatchId) (batch : Batch) :
    (settle_failure_state s bid batch).merchant_configs = s.merchant_configs := rfl

theorem sfs_settle_config (s : AgentState) (bid : BatchId) (batch : Batch) :
    (settle_failure_state s bid batch).settle_config = s.settle_config := rfl

theorem sfs_payments (s : AgentState) (bid : BatchId) (batch : Batch) :
    (settle_failure_state s bid batch).batch_payments = s.batch_payments := rfl

theorem sfs_pdas (s : AgentState) (bid : BatchId) (batch : Batch) :
    (settle_failure_state s bid batch).escrow_pdas = s.escrow_pdas := rfl

theorem sfs_batches (s : AgentState) (bid : BatchId) (batch : Batch) :
    (settle_failure_state s bid batch).batches =
      kvInsert s.batches bid (settle_failed_batch batch) := by
  simp only [settle_failure_state]
  simp [kvInsert_kvInsert_self]

/-! Invariant preservation by settle_batch. -/

theorem InvCore_settle_success (s : AgentState) (bid : BatchId) (batch : Batch) (g : Nat)
    (hI : InvCore s) (hb : kvGet s.batches bid = some batch) (hst : batch.status = "pending") :
    InvCore (settle_success_state s bid batch g) := by
  classical
  have hpay := sss_payments s bid batch g
  have hbat := sss_batches s bid batch g
  constructor
  · intro e he
    rw [hpay] at he
    rcases mem_kvMapValues he with ⟨e0, he0, rfl⟩
    by_cases hc : e0.2.batch_id = some bid
    · simp [hc, paymentStatusSet]
    · simpa [hc] using hI.status_ok e0 he0
  · intro e he hpend
    rw [hpay] at he
    rcases mem_kvMapValues he with ⟨e0, he0, rfl⟩
    by_cases hc : e0.2.batch_id = some bid
    · simp [hc] at hpend
    · simp only [hc, if_neg, not_false_iff] at hpend ⊢
      exact hI.pending_no_batch e0 he0 hpend
  · intro e he hlink
    rw [hpay] at he
    rcases mem_kvMapValues he with ⟨e0, he0, rfl⟩
    by_cases hc : e0.2.batch_id = some bid
    · simp [hc]
    · simp only [hc, if_neg, not_false_iff] at hlink ⊢
      exact hI.batch_link_status e0 he0 hlink
  · intro e he
    rw [hbat] at he
    rcases mem_kvInsert he with rfl | he0
    · simp [settle_final_batch, batchStatusSet]
    · exact hI.batch_status_ok e he0
  · intro e he hpend
    rw [hpay] at he
    rcases mem_kvMapValues he with ⟨e0, he0, rfl⟩
    by_cases hc : e0.2.batch_id = some bid
    · simp [hc] at hpend
    · simp only [hc, if_neg, not_false_iff] at hpend ⊢
      exact sss_pdas_ne_none s bid batch g _ (hI.pending_has_pda e0 he0 hpend)
  · intro e he
    rw [hbat] at he
    rcases mem_kvInsert he with rfl | he0
    · have : (settle_final_batch batch bid s.clock g).merchant_id = batch.merchant_id := rfl
      rw [this]
      exact sss_pdas_ne_none s bid batch g _ (hI.batch_has_pda (bid, batch) (kvGet_mem hb))
    · exact sss_pdas_ne_none s bid batch g _ (hI.batch_has_pda e he0)
  · intro m pda4 hm
    have hcom : committed_open (settle_success_state s bid batch g) m =
        kvSumBy (fun b => if b.merchant_id = m ∧ b.status ≠ "settled" then b.total_amount else 0)
          (kvInsert s.batches bid (settle_final_batch batch bid s.clock g)) := by
      simp only [committed_open, hbat]
    have hsum := kvSumBy_kvInsert
      (fun b => if b.merchant_id = m ∧ b.status ≠ "settled" then b.total_amount else 0)
      (settle_final_batch batch bid s.clock g) hb
    beta_reduce at hsum
    by_cases hbm : m = batch.merchant_id
    · subst hbm
      have hpda0 := hI.batch_has_pda (bid, batch) (kvGet_mem hb)
      rcases hpo : kvGet s.escrow_pdas batch.merchant_id with _ | pda
      · exact absurd hpo hpda0
      · rw [sss_pdas_some s bid batch g hpo, kvGet_kvInsert_self] at hm
        have hpda4 : pda4 = settled_pda pda batch := (Option.some.injEq _ _).mp hm.symm
        have hfb : (if (settle_final_batch batch bid s.clock g).merchant_id = batch.merchant_id ∧
            (settle_final_batch batch bid s.clock g).status ≠ "settled" then
            (settle_final_batch batch bid s.clock g).total_amount else 0) = 0 := by
          simp [settle_final_batch]
        have hfbatch : (if batch.merchant_id = batch.merchant_id ∧ batch.status ≠ "settled" then
            batch.total_amount else 0) = batch.total_amount := by
          rw [hst]
          simp
        rw [hfb, hfbatch] at hsum
        have hle := le_kvSumBy
          (fun b => if b.merchant_id = batch.merchant_id ∧ b.status ≠ "settled" then
            b.total_amount else 0) hb
        beta_reduce at hle
        rw [hfbatch] at hle
        have hbal := hI.balance_eq batch.merchant_id pda hpo
        have hsp : pda4.total_balance =
            (max 0 ((pda.total_balance : Int) - (batch.total_amount : Int))).toNat := by
          rw [hpda4]
          rfl
        have h1 : committed_open s batch.merchant_id = kvSumBy
            (fun b => if b.merchant_id = batch.merchant_id ∧ b.status ≠ "settled" then
              b.total_amount else 0) s.batches := rfl
        rw [hsp, hcom]
        rw [h1] at hbal
        omega
    · have hget : kvGet (settle_success_state s bid batch g).escrow_pdas m =
          kvGet s.escrow_pdas m := by
        rcases hpo : kvGet s.escrow_pdas batch.merchant_id with _ | pda
        · rw [sss_pdas_none s bid batch g hpo]
        · rw [sss_pdas_some s bid batch g hpo]
          exact kvGet_kvInsert_ne _ _ hbm
      rw [hget] at hm
      have hbal := hI.balance_eq m pda4 hm
      have hbm2 : batch.merchant_id ≠ m := fun h2 => hbm h2.symm
      have hfb : (if (settle_final_batch batch bid s.clock g).merchant_id = m ∧
          (settle_final_batch batch bid s.clock g).status ≠ "settled" then
          (settle_final_batch batch bid s.clock g).total_amount else 0) = 0 := by
        have h2 : (settle_final_batch batch bid s.clock g).merchant_id = batch.merchant_id := rfl
        simp [h2, hbm2]
      have hfbatch : (if batch.merchant_id = m ∧ batch.status ≠ "settled" then
          batch.total_amount else 0) = 0 := by
        simp [hbm2]
      rw [hfb, hfbatch] at hsum
      have h1 : committed_open s m = kvSumBy
          (fun b => if b.merchant_id = m ∧ b.status ≠ "settled" then b.total_amount else 0)
          s.batches := rfl
      rw [hcom, hbal, h1]
      omega

theorem InvCore_settle_failure (s : AgentState) (bid : BatchId) (batch : Batch)
    (hI : InvCore s) (hb : kvGet s.batches bid = some batch) (hst : batch.status = "pending") :
    InvCore (settle_failure_state s bid batch) := by
  classical
  have hbat := sfs_batches s bid batch
  constructor
  · intro e he
    rw [sfs_payments] at he
    exact hI.status_ok e he
  · intro e he hpend
    rw [sfs_payments] at he
    exact hI.pending_no_batch e he hpend
  · intro e he hlink
    rw [sfs_payments] at he
    exact hI.batch_link_status e he hlink
  · intro e he
    rw [hbat] at he
    rcases mem_kvInsert he with rfl | he0
    · simp [settle_failed_batch, batchStatusSet]
    · exact hI.batch_status_ok e he0
  · intro e he hpend
    rw [sfs_payments] at he
    rw [sfs_pdas]
    exact hI.pending_has_pda e he hpend
  · intro e he
    rw [hbat] at he
    rw [sfs_pdas]
    rcases mem_kvInsert he with rfl | he0
    · have : (settle_failed_batch batch).merchant_id = batch.merchant_id := rfl
      rw [this]
      exact hI.batch_has_pda (bid, batch) (kvGet_mem hb)
    · exact hI.batch_has_pda e he0
  · intro m pda hm
    rw [sfs_pdas] at hm
    have hbal := hI.balance_eq m pda hm
    have hsum := kvSumBy_kvInsert
      (fun b => if b.merchant_id = m ∧ b.status ≠ "settled" then b.total_amount else 0)
      (settle_failed_batch batch) hb
    beta_reduce at hsum
    have heqc : (if (settle_failed_batch batch).merchant_id = m ∧
        (settle_failed_batch batch).status ≠ "settled" then
        (settle_failed_batch batch).total_amount else 0) =
        (if batch.merchant_id = m ∧ batch.status ≠ "settled" then batch.total_amount else 0) := by
      have h1 : (settle_failed_batch batch).merchant_id = batch.merchant_id := rfl
      have h2 : (settle_failed_batch batch).status = "failed" := rfl
      have h3 : (settle_failed_batch batch).total_amount = batch.total_amount := rfl
      rw [h1, h2, h3, hst]
      by_cases hbm : batch.merchant_id = m <;> simp [hbm]
    rw [heqc] at hsum
    have h1 : committed_open (settle_failure_state s bid batch) m = kvSumBy
        (fun b => if b.merchant_id = m ∧ b.status ≠ "settled" then b.total_amount else 0)
        (kvInsert s.batches bid (settle_failed_batch batch)) := by
      simp only [committed_open, hbat]
    rw [h1, hbal]
    have h2 : committed_open s m = kvSumBy
        (fun b => if b.merchant_id = m ∧ b.status ≠ "settled" then b.total_amount else 0)
        s.batches := rfl
    rw [h2]
    omega

/-! Branch equations for settle_batch. -/

theorem settle_batch_eq_none {s : AgentState} {bid : BatchId} (ok : Bool) (g : Nat)
    (hb : kvGet s.batches bid = none) : settle_batch s bid ok g = (false, s) := by
  simp [settle_batch, hb]

theorem settle_batch_eq_notpending {s : AgentState} {bid : BatchId} {batch : Batch}
    (ok : Bool) (g : Nat) (hb : kvGet s.batches bid = some batch)
    (hst : batch.status ≠ "pending") : settle_batch s bid ok g = (false, s) := by
  simp [settle_batch, hb, hst]

theorem settle_batch_eq_paused {s : AgentState} {bid : BatchId} {batch : Batch}
    (ok : Bool) (g : Nat) (hb : kvGet s.batches bid = some batch)
    (hst : batch.status = "pending") (hp : emergency_paused s = true) :
    settle_batch s bid ok g = (false, s) := by
  simp [settle_batch, hb, hst, hp]

theorem settle_batch_eq_success {s : AgentState} {bid : BatchId} {batch : Batch} (g : Nat)
    (hb : kvGet s.batches bid = some batch) (hst : batch.status = "pending")
    (hp : emergency_paused s = false) :
    settle_batch s bid true g = (true, settle_success_state s bid batch g) := by
  simp [settle_batch, hb, hst, hp]

theorem settle_batch_eq_failure {s : AgentState} {bid : BatchId} {batch : Batch} (g : Nat)
    (hb : kvGet s.batches bid = some batch) (hst : batch.status = "pending")
    (hp : emergency_paused s = false) :
    settle_batch s bid false g = (false, settle_failure_state s bid batch) := by
  simp [settle_batch, hb, hst, hp]

theorem InvCore_settle_batch (s : AgentState) (bid : BatchId) (ok : Bool) (g : Nat)
    (hI : InvCore s) : InvCore (settle_batch s bid ok g).2 := by
  rcases hb : kvGet s.batches bid with _ | batch
  · rw [settle_batch_eq_none ok g hb]
    exact hI
  · by_cases hst : batch.status = "pending"
    · rcases hp : emergency_paused s with _ | _
      · cases ok
        · rw [settle_batch_eq_failure g hb hst hp]
          exact InvCore_settle_failure s bid batch hI hb hst
        · rw [settle_batch_eq_success g hb hst hp]
          exact InvCore_settle_success s bid batch g hI hb hst
      · rw [settle_batch_eq_paused ok g hb hst hp]
        exact hI
    · rw [settle_batch_eq_notpending ok g hb hst]
      exact hI

theorem settle_batch_payment_keys (s : AgentState) (bid : BatchId) (ok : Bool) (g : Nat) :
    (settle_batch s bid ok g).2.batch_payments.map Prod.fst =
      s.batch_payments.map Prod.fst := by
  rcases hb : kvGet s.batches bid with _ | batch
  · rw [settle_batch_eq_none ok g hb]
  · by_cases hst : batch.status = "pending"
    · rcases hp : emergency_paused s with _ | _
      · cases ok
        · rw [settle_batch_eq_failure g hb hst hp, sfs_payments]
        · rw [settle_batch_eq_success g hb hst hp]
          rw [sss_payments, keys_kvMapValues]
      · rw [settle_batch_eq_paused ok g hb hst hp]
    · rw [settle_batch_eq_notpending ok g hb hst]

theorem settle_batch_batch_keys (s : AgentState) (bid : BatchId) (ok : Bool) (g : Nat) :
    (settle_batch s bid ok g).2.batches.map Prod.fst = s.batches.map Prod.fst := by
  rcases hb : kvGet s.batches bid with _ | batch
  · rw [settle_batch_eq_none ok g hb]
  · by_cases hst : batch.status = "pending"
    · rcases hp : emergency_paused s with _ | _
      · cases ok
        · rw [settle_batch_eq_failure g hb hst hp, sfs_batches]
          exact keys_kvInsert_of_get_some _ hb
        · rw [settle_batch_eq_success g hb hst hp, sss_batches]
          exact keys_kvInsert_of_get_some _ hb
      · rw [settle_batch_eq_paused ok g hb hst hp]
    · rw [settle_batch_eq_notpending ok g hb hst]

theorem settle_batch_clock (s : AgentState) (bid : BatchId) (ok : Bool) (g : Nat) :
    (settle_batch s bid ok g).2.clock = s.clock := by
  rcases hb : kvGet s.batches bid with _ | batch
  · rw [settle_batch_eq_none ok g hb]
  · by_cases hst : batch.status = "pending"
    · rcases hp : emergency_paused s with _ | _
      · cases ok
        · rw [settle_batch_eq_failure g hb hst hp, sfs_clock]
        · rw [settle_batch_eq_success g hb hst hp]
          exact sss_clock s bid batch g
      · rw [settle_batch_eq_paused ok g hb hst hp]
    · rw [settle_batch_eq_notpending ok g hb hst]

theorem PayForward_settle_success (s : AgentState) (bid : BatchId) (batch : Batch) (g : Nat)
    (hI : InvCore s) :
    PayForward s.batch_payments (settle_success_state s bid batch g).batch_payments := by
  intro k p hp
  rw [sss_payments, kvGet_kvMapValues, hp]
  refine ⟨_, rfl, ?_⟩
  by_cases hc : p.batch_id = some bid
  · have hls := hI.batch_link_status (k, p) (kvGet_mem hp) (by rw [hc]; simp)
    rcases hls with hbatched | hsettled
    · exact Or.inr (Or.inr ⟨hbatched, by simp [hc]⟩)
    · refine Or.inl ?_
      rw [hsettled]
      simp [hc]
  · exact Or.inl (by simp [hc])

theorem PayForward_settle_batch (s : AgentState) (bid : BatchId) (ok : Bool) (g : Nat)
    (hI : InvCore s) :
    PayForward s.batch_payments (settle_batch s bid ok g).2.batch_payments := by
  rcases hb : kvGet s.batches bid with _ | batch
  · rw [settle_batch_eq_none ok g hb]
    exact PayForward_refl _
  · by_cases hst : batch.status = "pending"
    · rcases hp : emergency_paused s with _ | _
      · cases ok
        · rw [settle_batch_eq_failure g hb hst hp, sfs_payments]
          exact PayForward_refl _
        · rw [settle_batch_eq_success g hb hst hp]
          exact PayForward_settle_success s bid batch g hI
      · rw [settle_batch_eq_paused ok g hb hst hp]
        exact PayForward_refl _
    · rw [settle_batch_eq_notpending ok g hb hst]
      exact PayForward_refl _

/-! Characterization of create_batch_apply. -/

/-- Abbreviation for the pending total computed by the batching code. -/
def pending_total (s : AgentState) (merchant_id : String) : Nat :=
  ((pending_payments_for s merchant_id).map (fun p => p.amount)).sum

theorem cba_fst (s : AgentState) (m : String) : (create_batch_apply s m).1 = (m, s.clock) := by
  simp only [create_batch_apply]

theorem cba_clock (s : AgentState) (m : String) : (create_batch_apply s m).2.clock = s.clock := by
  simp only [create_batch_apply]
  split <;> rfl

theorem cba_configs (s : AgentState) (m : String) :
    (create_batch_apply s m).2.merchant_configs = s.merchant_configs := by
  simp only [create_batch_apply]
  split <;> rfl

theorem cba_settle_config (s : AgentState) (m : String) :
    (create_batch_apply s m).2.settle_config = s.settle_config := by
  simp only [create_batch_apply]
  split <;> rfl

theorem cba_payments (s : AgentState) (m : String) :
    (create_batch_apply s m).2.batch_payments =
      kvMapValues (fun p => if p.merchant_id = m ∧ p.status = "pending" then
          { p with status := "batched", batch_id := some (m, s.clock) }
        else p) s.batch_payments := by
  simp only [create_batch_apply]
  split <;> rfl

theorem cba_batches (s : AgentState) (m : String) :
    (create_batch_apply s m).2.batches =
      kvInsert s.batches (m, s.clock)
        (new_batch (m, s.clock) m (pending_total s m) (pending_payments_for s m).length
          s.clock) := by
  simp only [create_batch_apply, pending_total]
  split <;> rfl

theorem cba_pdas_some (s : AgentState) (m : String) {pda : EscrowPDA}
    (hpo : kvGet s.escrow_pdas m = some pda) :
    (create_batch_apply s m).2.escrow_pdas =
      kvInsert s.escrow_pdas m
        { pda with total_balance := pda.total_balance + pending_total s m,
                   pending_batches := pda.pending_batches + 1 } := by
  simp only [create_batch_apply, pending_total]
  split
  · rename_i heq
    rw [hpo] at heq
    cases heq
  · rename_i pda2 heq
    rw [hpo] at heq
    cases heq
    rfl

theorem cba_pdas_none (s : AgentState) (m : String)
    (hpo : kvGet s.escrow_pdas m = none) :
    (create_batch_apply s m).2.escrow_pdas = s.escrow_pdas := by
  simp only [create_batch_apply]
  split
  · rfl
  · rename_i pda2 heq
    rw [hpo] at heq
    cases heq

/-- Membership facts about a pending payment. -/
theorem pending_payments_mem {s : AgentState} {m : String} {p : BatchPayment}
    (h : p ∈ pending_payments_for s m) :
    ∃ e ∈ s.batch_payments, e.2 = p ∧ p.merchant_id = m ∧ p.status = "pending" := by
  simp only [pending_payments_for] at h
  rcases List.mem_map.mp h with ⟨e, he, rfl⟩
  rcases List.mem_filter.mp he with ⟨he1, he2⟩
  have := of_decide_eq_true he2
  exact ⟨e, he1, rfl, this.1, this.2⟩

/-- A merchant with a pending payment has an escrow PDA. -/
theorem pda_of_pending {s : AgentState} {m : String} (hI : InvCore s)
    (h : pending_payments_for s m ≠ []) : kvGet s.escrow_pdas m ≠ none := by
  rcases List.exists_mem_of_ne_nil _ h with ⟨p, hp⟩
  rcases pending_payments_mem hp with ⟨e, he, he2, hm, hpend⟩
  have := hI.pending_has_pda e he (by rw [he2]; exact hpend)
  rw [he2, hm] at this
  exact this

theorem InvCore_create_apply (s : AgentState) (m : String) (hI : InvCore s)
    (hnone : kvGet s.batches (m, s.clock) = none)
    (hpda : kvGet s.escrow_pdas m ≠ none) :
    InvCore (create_batch_apply s m).2 := by
  classical
  have hpay := cba_payments s m
  have hbat := cba_batches s m
  rcases hpo : kvGet s.escrow_pdas m with _ | pda
  · exact absurd hpo hpda
  have hpdas := cba_pdas_some s m hpo
  constructor
  · intro e he
    rw [hpay] at he
    rcases mem_kvMapValues he with ⟨e0, he0, rfl⟩
    by_cases hc : e0.2.merchant_id = m ∧ e0.2.status = "pending"
    · simp [hc, paymentStatusSet]
    · simpa [hc] using hI.status_ok e0 he0
  · intro e he hpend
    rw [hpay] at he
    rcases mem_kvMapValues he with ⟨e0, he0, rfl⟩
    by_cases hc : e0.2.merchant_id = m ∧ e0.2.status = "pending"
    · simp [hc] at hpend
    · simp only [hc, if_neg, not_false_iff] at hpend ⊢
      exact hI.pending_no_batch e0 he0 hpend
  · intro e he hlink
    rw [hpay] at he
    rcases mem_kvMapValues he with ⟨e0, he0, rfl⟩
    by_cases hc : e0.2.merchant_id = m ∧ e0.2.status = "pending"
    · simp [hc]
    · simp only [hc, if_neg, not_false_iff] at hlink ⊢
      exact hI.batch_link_status e0 he0 hlink
  · intro e he
    rw [hbat] at he
    rcases mem_kvInsert he with rfl | he0
    · simp [new_batch, batchStatusSet]
    · exact hI.batch_status_ok e he0
  · intro e he hpend
    rw [hpay] at he
    rcases mem_kvMapValues he with ⟨e0, he0, rfl⟩
    by_cases hc : e0.2.merchant_id = m ∧ e0.2.status = "pending"
    · simp [hc] at hpend
    · simp only [hc, if_neg, not_false_iff] at hpend ⊢
      rw [hpdas]
      exact kvGet_ne_none_kvInsert _ _ _ _ (hI.pending_has_pda e0 he0 hpend)
  · intro e he
    rw [hbat] at he
    rw [hpdas]
    rcases mem_kvInsert he with rfl | he0
    · have h2 : (new_batch (m, s.clock) m (pending_total s m)
          (pending_payments_for s m).length s.clock).merchant_id = m := rfl
      rw [h2]
      exact kvGet_ne_none_kvInsert _ _ _ _ hpda
    · exact kvGet_ne_none_kvInsert _ _ _ _ (hI.batch_has_pda e he0)
  · intro m0 pda0 hm0
    have hnb : kvInsert s.batches (m, s.clock)
        (new_batch (m, s.clock) m (pending_total s m) (pending_payments_for s m).length
          s.clock) = s.batches ++ [((m, s.clock),
        new_batch (m, s.clock) m (pending_total s m) (pending_payments_for s m).length
          s.clock)] := kvInsert_of_get_none _ hnone
    have hcom : ∀ m1 : String, committed_open (create_batch_apply s m).2 m1 =
        committed_open s m1 +
          (if m = m1 ∧ ("pending" : String) ≠ "settled" then pending_total s m else 0) := by
      intro m1
      simp only [committed_open, hbat, hnb, kvSumBy_append]
      have hsingle : kvSumBy
          (fun b => if b.merchant_id = m1 ∧ b.status ≠ "settled" then b.total_amount else 0)
          [((m, s.clock), new_batch (m, s.clock) m (pending_total s m)
            (pending_payments_for s m).length s.clock)] =
          (if m = m1 ∧ ("pending" : String) ≠ "settled" then pending_total s m else 0) := by
        simp [kvSumBy, new_batch]
      rw [hsingle]
    by_cases hm1 : m0 = m
    · rw [hm1] at hm0 ⊢
      rw [hpdas, kvGet_kvInsert_self] at hm0
      have hpda0 : pda0 =
          { pda with
              total_balance := pda.total_balance + pending_total s m,
              pending_batches := pda.pending_batches + 1 } :=
        (Option.some.injEq _ _).mp hm0.symm
      rw [hpda0, hcom m]
      have hbal := hI.balance_eq m pda hpo
      simp [hbal]
    · rw [hpdas, kvGet_kvInsert_ne _ _ hm1] at hm0
      have hbal := hI.balance_eq m0 pda0 hm0
      rw [hcom m0, hbal]
      have hne : ¬(m = m0 ∧ ("pending" : String) ≠ "settled") := by
        intro h
        exact hm1 h.1.symm
      rw [if_neg hne]
      omega

theorem PayForward_create_apply (s : AgentState) (m : String) :
    PayForward s.batch_payments (create_batch_apply s m).2.batch_payments := by
  intro k p hp
  rw [cba_payments, kvGet_kvMapValues, hp]
  refine ⟨_, rfl, ?_⟩
  by_cases hc : p.merchant_id = m ∧ p.status = "pending"
  · exact Or.inr (Or.inl ⟨hc.2, Or.inl (by simp [hc])⟩)
  · exact Or.inl (by simp [hc])

/-! More key lemmas. -/

theorem keys_mem_kvInsert {κ α : Type} [DecidableEq κ] {l : List (κ × α)} {k a : κ} {v : α}
    (h : a ∈ (kvInsert l k v).map Prod.fst) : a ∈ l.map Prod.fst ∨ a = k := by
  rcases List.mem_map.mp h with ⟨e, he, rfl⟩
  rcases mem_kvInsert he with rfl | he0
  · exact Or.inr rfl
  · exact Or.inl (List.mem_map_of_mem _ he0)

theorem kvGet_eq_none_of_ne {κ α : Type} [DecidableEq κ] {l : List (κ × α)} {k : κ}
    (h : ∀ e ∈ l, e.1 ≠ k) : kvGet l k = none := by
  rcases hk : kvGet l k with _ | v
  · rfl
  · exact absurd rfl (h (k, v) (kvGet_mem hk))

/-! Branch equations and master lemma for create_batch_for_merchant. -/

theorem cbm_eq_noconfig {s : AgentState} {m : String} (ok : Bool) (g : Nat)
    (hc : kvGet s.merchant_configs m = none) :
    create_batch_for_merchant s m ok g = ("merchant_not_found", s) := by
  simp [create_batch_for_merchant, hc]

theorem cbm_eq_nopending {s : AgentState} {m : String} {config : MerchantConfig}
    (ok : Bool) (g : Nat) (hc : kvGet s.merchant_configs m = some config)
    (hp : (pending_payments_for s m).length = 0) :
    create_batch_for_merchant s m ok g = ("no_pending_payments", s) := by
  simp [create_batch_for_merchant, hc, hp]

theorem cbm_eq_auto {s : AgentState} {m : String} {config : MerchantConfig}
    (ok : Bool) (g : Nat) (hc : kvGet s.merchant_configs m = some config)
    (hp : ¬(pending_payments_for s m).length = 0) (ha : config.auto_settle = true) :
    create_batch_for_merchant s m ok g = ("batch_" ++ m ++ "_" ++ toString s.clock,
      (settle_batch (create_batch_apply s m).2 (create_batch_apply s m).1 ok g).2) := by
  simp [create_batch_for_merchant, hc, hp, ha]

theorem cbm_eq_manual {s : AgentState} {m : String} {config : MerchantConfig}
    (ok : Bool) (g : Nat) (hc : kvGet s.merchant_configs m = some config)
    (hp : ¬(pending_payments_for s m).length = 0) (ha : config.auto_settle = false) :
    create_batch_for_merchant s m ok g = ("batch_" ++ m ++ "_" ++ toString s.clock,
      (create_batch_apply s m).2) := by
  simp [create_batch_for_merchant, hc, hp, ha]

theorem cbm_master (s : AgentState) (m : String) (ok : Bool) (g : Nat) (hI : InvCore s)
    (hfresh : kvGet s.batches (m, s.clock) = none) :
    InvCore (create_batch_for_merchant s m ok g).2 ∧
    (create_batch_for_merchant s m ok g).2.clock = s.clock ∧
    (create_batch_for_merchant s m ok g).2.batch_payments.map Prod.fst =
      s.batch_payments.map Prod.fst ∧
    (∀ x ∈ (create_batch_for_merchant s m ok g).2.batches.map Prod.fst,
      x ∈ s.batches.map Prod.fst ∨ x = (m, s.clock)) ∧
    PayForward s.batch_payments (create_batch_for_merchant s m ok g).2.batch_payments := by
  rcases hc : kvGet s.merchant_configs m with _ | config
  · rw [cbm_eq_noconfig ok g hc]
    exact ⟨hI, rfl, rfl, fun x hx => Or.inl hx, PayForward_refl _⟩
  · by_cases hp : (pending_payments_for s m).length = 0
    · rw [cbm_eq_nopending ok g hc hp]
      exact ⟨hI, rfl, rfl, fun x hx => Or.inl hx, PayForward_refl _⟩
    · have hpne : pending_payments_for s m ≠ [] := by
        intro h
        rw [h] at hp
        exact hp rfl
      have hpda := pda_of_pending hI hpne
      have hImid := InvCore_create_apply s m hI hfresh hpda
      have hmidpayk : (create_batch_apply s m).2.batch_payments.map Prod.fst =
          s.batch_payments.map Prod.fst := by
        rw [cba_payments]
        exact keys_kvMapValues _ _
      have hmidbatk : ∀ x ∈ (create_batch_apply s m).2.batches.map Prod.fst,
          x ∈ s.batches.map Prod.fst ∨ x = (m, s.clock) := by
        intro x hx
        rw [cba_batches] at hx
        exact keys_mem_kvInsert hx
      have hmidclock := cba_clock s m
      have hmidfwd := PayForward_create_apply s m
      rcases ha : config.auto_settle with _ | _
      · rw [cbm_eq_manual ok g hc hp ha]
        exact ⟨hImid, hmidclock, hmidpayk, hmidbatk, hmidfwd⟩
      · rw [cbm_eq_auto ok g hc hp ha]
        refine ⟨InvCore_settle_batch _ _ ok g hImid, ?_, ?_, ?_, ?_⟩
        · rw [settle_batch_clock]
          exact hmidclock
        · rw [settle_batch_payment_keys]
          exact hmidpayk
        · intro x hx
          rw [settle_batch_batch_keys] at hx
          exact hmidbatk x hx
        · exact PayForward_trans hmidfwd (PayForward_settle_batch _ _ ok g hImid)

/-! Lemmas about the small steps of process_payment. -/

theorem emc_payments (s : AgentState) (m a k : String) :
    (ensure_merchant_config s m a k).batch_payments = s.batch_payments := by
  simp only [ensure_merchant_config]
  split <;> rfl

theorem emc_batches (s : AgentState) (m a k : String) :
    (ensure_merchant_config s m a k).batches = s.batches := by
  simp only [ensure_merchant_config]
  split <;> rfl

theorem emc_pdas (s : AgentState) (m a k : String) :
    (ensure_merchant_config s m a k).escrow_pdas = s.escrow_pdas := by
  simp only [ensure_merchant_config]
  split <;> rfl

theorem emc_clock (s : AgentState) (m a k : String) :
    (ensure_merchant_config s m a k).clock = s.clock := by
  simp only [ensure_merchant_config]
  split <;> rfl

theorem InvCore_emc (s : AgentState) (m a k : String) (hI : InvCore s) :
    InvCore (ensure_merchant_config s m a k) := by
  simp only [ensure_merchant_config]
  split
  · exact hI
  · exact ⟨hI.status_ok, hI.pending_no_batch, hI.batch_link_status, hI.batch_status_ok,
      hI.pending_has_pda, hI.batch_has_pda, hI.balance_eq⟩

theorem coge_payments (s : AgentState) (m : String) :
    (create_or_get_escrow_pda s m).batch_payments = s.batch_payments := by
  simp only [create_or_get_escrow_pda]
  split <;> rfl

theorem coge_batches (s : AgentState) (m : String) :
    (create_or_get_escrow_pda s m).batches = s.batches := by
  simp only [create_or_get_escrow_pda]
  split <;> rfl

theorem coge_clock (s : AgentState) (m : String) :
    (create_or_get_escrow_pda s m).clock = s.clock := by
  simp only [create_or_get_escrow_pda]
  split <;> rfl

theorem coge_pda_self (s : AgentState) (m : String) :
    kvGet (create_or_get_escrow_pda s m).escrow_pdas m ≠ none := by
  simp only [create_or_get_escrow_pda]
  split
  · rename_i pda heq
    rw [heq]
    simp
  · rename_i heq
    have h2 := kvGet_kvInsert_self s.escrow_pdas m
      { pda_address := "escrow_pda_" ++ m ++ "_" ++ toString s.clock, merchant_id := m,
        total_balance := 0, pending_batches := 0, created_at := s.clock,
        last_settlement := none, is_active := true }
    intro hcon
    rw [h2] at hcon
    cases hcon

/-- Committed totals only read the batches storage. -/
theorem committed_open_congr {s1 s2 : AgentState} (m : String) (h : s1.batches = s2.batches) :
    committed_open s1 m = committed_open s2 m := by
  simp only [committed_open, h]

/-- Creating a PDA with zero balance keeps the invariant when the merchant has
no committed batches yet. -/
theorem InvCore_insert_new_pda (s : AgentState) (m : String) (npda : EscrowPDA)
    (hI : InvCore s) (hbal : npda.total_balance = 0) (hzero : committed_open s m = 0) :
    InvCore { s with escrow_pdas := kvInsert s.escrow_pdas m npda } := by
  have hred : ({ s with escrow_pdas := kvInsert s.escrow_pdas m npda } :
      AgentState).escrow_pdas = kvInsert s.escrow_pdas m npda := rfl
  have hcc : ∀ m1, committed_open
      { s with escrow_pdas := kvInsert s.escrow_pdas m npda } m1 = committed_open s m1 :=
    fun _ => rfl
  constructor
  · exact hI.status_ok
  · exact hI.pending_no_batch
  · exact hI.batch_link_status
  · exact hI.batch_status_ok
  · intro e he hpend
    exact kvGet_ne_none_kvInsert _ _ _ _ (hI.pending_has_pda e he hpend)
  · intro e he
    exact kvGet_ne_none_kvInsert _ _ _ _ (hI.batch_has_pda e he)
  · intro m0 pda hm0
    rw [hred] at hm0
    by_cases hmm : m0 = m
    · rw [hmm] at hm0 ⊢
      rw [kvGet_kvInsert_self] at hm0
      have hpda : pda = npda := (Option.some.injEq _ _).mp hm0.symm
      rw [hpda, hcc, hzero, hbal]
    · rw [kvGet_kvInsert_ne _ _ hmm] at hm0
      rw [hcc]
      exact hI.balance_eq m0 pda hm0

theorem InvCore_coge (s : AgentState) (m : String) (hI : InvCore s) :
    InvCore (create_or_get_escrow_pda s m) := by
  simp only [create_or_get_escrow_pda]
  split
  · exact hI
  · rename_i heq
    have hzero : committed_open s m = 0 := by
      apply kvSumBy_eq_zero
      intro e he
      by_cases hme : e.2.merchant_id = m
      · have := hI.batch_has_pda e he
        rw [hme, heq] at this
        exact absurd rfl this
      · simp [hme]
    exact InvCore_insert_new_pda s m _ hI rfl hzero

theorem insert_payment_payments (s : AgentState) (k : PaymentKey) (p : BatchPayment) :
    (insert_payment s k p).batch_payments = kvInsert s.batch_payments k p := rfl

theorem insert_payment_batches (s : AgentState) (k : PaymentKey) (p : BatchPayment) :
    (insert_payment s k p).batches = s.batches := rfl

theorem insert_payment_pdas (s : AgentState) (k : PaymentKey) (p : BatchPayment) :
    (insert_payment s k p).escrow_pdas = s.escrow_pdas := rfl

theorem insert_payment_clock (s : AgentState) (k : PaymentKey) (p : BatchPayment) :
    (insert_payment s k p).clock = s.clock := rfl

/-- Inserting a payment record whose status and batch link satisfy the payment
invariants keeps the invariant. -/
theorem InvCore_insert_payment (s : AgentState) (k : PaymentKey) (p : BatchPayment)
    (hI : InvCore s) (hstat : paymentStatusSet p.status) (hlink : p.batch_id = none)
    (hpda : p.status = "pending" → kvGet s.escrow_pdas p.merchant_id ≠ none) :
    InvCore (insert_payment s k p) := by
  constructor
  · intro e he
    rcases mem_kvInsert he with rfl | he0
    · exact hstat
    · exact hI.status_ok e he0
  · intro e he hpend
    rcases mem_kvInsert he with rfl | he0
    · exact hlink
    · exact hI.pending_no_batch e he0 hpend
  · intro e he hl
    rcases mem_kvInsert he with rfl | he0
    · exact absurd hlink hl
    · exact hI.batch_link_status e he0 hl
  · exact hI.batch_status_ok
  · intro e he hpend
    rcases mem_kvInsert he with rfl | he0
    · exact hpda hpend
    · exact hI.pending_has_pda e he0 hpend
  · exact hI.batch_has_pda
  · exact hI.balance_eq

/-! Branch equations and master lemma for process_payment. -/

/-- The state after the escrow-route intake of process_payment (config
creation, PDA creation, pending payment insert), before the batching check. -/
def escrow_intake (s : AgentState) (api_key merchant_id user_wallet merchant_address : String)
    (amount : Nat) : AgentState :=
  insert_payment
    (create_or_get_escrow_pda (ensure_merchant_config s merchant_id merchant_address api_key)
      merchant_id)
    s.clock
    (escrow_payment s.clock merchant_id user_wallet amount s.clock)

theorem pp_eq_escrow {s : AgentState} {k m w a : String} (amt : Nat) (ok : Bool) (g : Nat)
    (hesc : should_use_escrow k = true) :
    process_payment s k m w a amt ok g =
      ("escrow_batched_payment_" ++ toString s.clock,
        if should_create_batch (escrow_intake s k m w a amt) m then
          (create_batch_for_merchant (escrow_intake s k m w a amt) m ok g).2
        else escrow_intake s k m w a amt) := by
  simp [process_payment, escrow_intake, hesc]

theorem pp_eq_direct {s : AgentState} {k m w a : String} (amt : Nat) (ok : Bool) (g : Nat)
    (hesc : should_use_escrow k = false) :
    process_payment s k m w a amt ok g =
      ("direct_settled_payment_" ++ toString s.clock,
        insert_payment (ensure_merchant_config s m a k) s.clock
          (direct_payment s.clock m w amt s.clock)) := by
  simp [process_payment, hesc]

theorem escrow_intake_payments (s : AgentState) (k m w a : String) (amt : Nat) :
    (escrow_intake s k m w a amt).batch_payments =
      kvInsert s.batch_payments s.clock (escrow_payment s.clock m w amt s.clock) := by
  simp only [escrow_intake, insert_payment_payments, coge_payments, emc_payments]

theorem escrow_intake_batches (s : AgentState) (k m w a : String) (amt : Nat) :
    (escrow_intake s k m w a amt).batches = s.batches := by
  simp only [escrow_intake, insert_payment_batches, coge_batches, emc_batches]

theorem escrow_intake_clock (s : AgentState) (k m w a : String) (amt : Nat) :
    (escrow_intake s k m w a amt).clock = s.clock := by
  simp only [escrow_intake, insert_payment_clock, coge_clock, emc_clock]

theorem InvCore_escrow_intake (s : AgentState) (k m w a : String) (amt : Nat)
    (hI : InvCore s) : InvCore (escrow_intake s k m w a amt) := by
  apply InvCore_insert_payment
  · exact InvCore_coge _ _ (InvCore_emc s m a k hI)
  · exact Or.inl rfl
  · rfl
  · intro _
    have h3 : (escrow_payment s.clock m w amt s.clock).merchant_id = m := rfl
    rw [h3]
    exact coge_pda_self (ensure_merchant_config s m a k) m

theorem pp_master (s : AgentState) (k m w a : String) (amt : Nat) (ok : Bool) (g : Nat)
    (hI : InvCore s)
    (hKp : ∀ e ∈ s.batch_payments, e.1 < s.clock)
    (hKb : ∀ e ∈ s.batches, e.1.2 < s.clock) :
    InvCore (process_payment s k m w a amt ok g).2 ∧
    (process_payment s k m w a amt ok g).2.clock = s.clock ∧
    (∀ x ∈ (process_payment s k m w a amt ok g).2.batch_payments.map Prod.fst,
      x ∈ s.batch_payments.map Prod.fst ∨ x = s.clock) ∧
    (∀ x ∈ (process_payment s k m w a amt ok g).2.batches.map Prod.fst,
      x ∈ s.batches.map Prod.fst ∨ x = (m, s.clock)) ∧
    PayForward s.batch_payments (process_payment s k m w a amt ok g).2.batch_payments := by
  have hfwd_ins : ∀ (s1 : AgentState) (p : BatchPayment),
      s1.batch_payments = kvInsert s.batch_payments s.clock p →
      PayForward s.batch_payments s1.batch_payments := by
    intro s1 p h1
    intro k0 p0 hp0
    have hk0 : k0 < s.clock := hKp (k0, p0) (kvGet_mem hp0)
    have hne : k0 ≠ s.clock := Nat.ne_of_lt hk0
    rw [h1, kvGet_kvInsert_ne _ _ hne, hp0]
    exact ⟨p0, rfl, statusForward_refl _⟩
  rcases hesc : should_use_escrow k with _ | _
  · rw [pp_eq_direct amt ok g hesc]
    have hpay : (insert_payment (ensure_merchant_config s m a k) s.clock
        (direct_payment s.clock m w amt s.clock)).batch_payments =
        kvInsert s.batch_payments s.clock (direct_payment s.clock m w amt s.clock) := by
      simp only [insert_payment_payments, emc_payments]
    refine ⟨?_, ?_, ?_, ?_, ?_⟩
    · apply InvCore_insert_payment
      · exact InvCore_emc s m a k hI
      · exact Or.inr (Or.inr rfl)
      · rfl
      · intro hcon
        simp [direct_payment] at hcon
    · simp only [insert_payment_clock, emc_clock]
    · intro x hx
      rw [hpay] at hx
      exact keys_mem_kvInsert hx
    · intro x hx
      have hb : (insert_payment (ensure_merchant_config s m a k) s.clock
          (direct_payment s.clock m w amt s.clock)).batches = s.batches := by
        simp only [insert_payment_batches, emc_batches]
      rw [hb] at hx
      exact Or.inl hx
    · exact hfwd_ins _ _ hpay
  · rw [pp_eq_escrow amt ok g hesc]
    have hIt := InvCore_escrow_intake s k m w a amt hI
    have htpay := escrow_intake_payments s k m w a amt
    have htbat := escrow_intake_batches s k m w a amt
    have htclk := escrow_intake_clock s k m w a amt
    have hfwd1 : PayForward s.batch_payments (escrow_intake s k m w a amt).batch_payments :=
      hfwd_ins _ _ htpay
    have htfresh : kvGet (escrow_intake s k m w a amt).batches
        (m, (escrow_intake s k m w a amt).clock) = none := by
      rw [htbat, htclk]
      apply kvGet_eq_none_of_ne
      intro e he heq
      have := hKb e he
      rw [heq] at this
      exact lt_irrefl _ this
    by_cases hscb : should_create_batch (escrow_intake s k m w a amt) m = true
    · rw [if_pos hscb]
      have hm := cbm_master (escrow_intake s k m w a amt) m ok g hIt htfresh
      refine ⟨hm.1, ?_, ?_, ?_, ?_⟩
      · rw [hm.2.1, htclk]
      · intro x hx
        rw [hm.2.2.1, htpay] at hx
        exact keys_mem_kvInsert hx
      · intro x hx
        rcases hm.2.2.2.1 x hx with hx1 | hx1
        · rw [htbat] at hx1
          exact Or.inl hx1
        · rw [htclk] at hx1
          exact Or.inr hx1
      · exact PayForward_trans hfwd1 hm.2.2.2.2
    · rw [if_neg hscb]
      refine ⟨hIt, htclk, ?_, ?_, hfwd1⟩
      · intro x hx
        rw [htpay] at hx
        exact keys_mem_kvInsert hx
      · intro x hx
        rw [htbat] at hx
        exact Or.inl hx

/-! The invariant holds in every reachable state. -/

theorem apply_op_process (s : AgentState) (k m w a : String) (amt : Nat) (ok : Bool)
    (g : Nat) : apply_op s (Op.processPayment k m w a amt ok g) =
      (process_payment s k m w a amt ok g).2 := rfl

theorem apply_op_create (s : AgentState) (m : String) (ok : Bool) (g : Nat) :
    apply_op s (Op.createBatch m ok g) = (create_batch_for_merchant s m ok g).2 := rfl

theorem apply_op_settle (s : AgentState) (b : BatchId) (ok : Bool) (g : Nat) :
    apply_op s (Op.settleBatch b ok g) = (settle_batch s b ok g).2 := rfl

theorem step_payments (s : AgentState) (op : Op) :
    (step s op).batch_payments = (apply_op s op).batch_payments := rfl

theorem step_batches (s : AgentState) (op : Op) :
    (step s op).batches = (apply_op s op).batches := rfl

theorem step_clock (s : AgentState) (op : Op) :
    (step s op).clock = (apply_op s op).clock + 1 := rfl

theorem AgentInv_step (s : AgentState) (op : Op) (h : AgentInv s) : AgentInv (step s op) := by
  obtain ⟨hI, hKp, hKb⟩ := h
  have hKp' : ∀ x ∈ s.batch_payments.map Prod.fst, x < s.clock := by
    intro x hx
    rcases List.mem_map.mp hx with ⟨e, he, rfl⟩
    exact hKp e he
  have hKb' : ∀ x ∈ s.batches.map Prod.fst, x.2 < s.clock := by
    intro x hx
    rcases List.mem_map.mp hx with ⟨e, he, rfl⟩
    exact hKb e he
  have hfacts : InvCore (apply_op s op) ∧ (apply_op s op).clock = s.clock ∧
      (∀ x ∈ (apply_op s op).batch_payments.map Prod.fst, x < s.clock + 1) ∧
      (∀ x ∈ (apply_op s op).batches.map Prod.fst, x.2 < s.clock + 1) := by
    cases op with
    | processPayment k m w a amt ok g =>
        rw [apply_op_process]
        have hm := pp_master s k m w a amt ok g hI hKp hKb
        refine ⟨hm.1, hm.2.1, ?_, ?_⟩
        · intro x hx
          rcases hm.2.2.1 x hx with h1 | h1
          · exact Nat.lt_succ_of_lt (hKp' x h1)
          · rw [h1]
            exact Nat.lt_succ_self _
        · intro x hx
          rcases hm.2.2.2.1 x hx with h1 | h1
          · exact Nat.lt_succ_of_lt (hKb' x h1)
          · rw [h1]
            exact Nat.lt_succ_self _
    | createBatch m ok g =>
        have hfresh : kvGet s.batches (m, s.clock) = none := by
          apply kvGet_eq_none_of_ne
          intro e he heq
          have h2 := hKb e he
          rw [heq] at h2
          exact lt_irrefl _ h2
        rw [apply_op_create]
        have hm := cbm_master s m ok g hI hfresh
        refine ⟨hm.1, hm.2.1, ?_, ?_⟩
        · intro x hx
          rw [hm.2.2.1] at hx
          exact Nat.lt_succ_of_lt (hKp' x hx)
        · intro x hx
          rcases hm.2.2.2.1 x hx with h1 | h1
          · exact Nat.lt_succ_of_lt (hKb' x h1)
          · rw [h1]
            exact Nat.lt_succ_self _
    | settleBatch b ok g =>
        rw [apply_op_settle]
        refine ⟨InvCore_settle_batch s b ok g hI, settle_batch_clock s b ok g, ?_, ?_⟩
        · intro x hx
          rw [settle_batch_payment_keys] at hx
          exact Nat.lt_succ_of_lt (hKp' x hx)
        · intro x hx
          rw [settle_batch_batch_keys] at hx
          exact Nat.lt_succ_of_lt (hKb' x hx)
  refine ⟨⟨hfacts.1.status_ok, hfacts.1.pending_no_batch, hfacts.1.batch_link_status,
    hfacts.1.batch_status_ok, hfacts.1.pending_has_pda, hfacts.1.batch_has_pda,
    hfacts.1.balance_eq⟩, ?_, ?_⟩
  · intro e he
    have hx := hfacts.2.2.1 e.1 (List.mem_map_of_mem _ he)
    have hclk : (step s op).clock = (apply_op s op).clock + 1 := rfl
    rw [hclk, hfacts.2.1]
    exact hx
  · intro e he
    have hx := hfacts.2.2.2 e.1 (List.mem_map_of_mem _ he)
    have hclk : (step s op).clock = (apply_op s op).clock + 1 := rfl
    rw [hclk, hfacts.2.1]
    exact hx

theorem AgentInv_init : AgentInv init_state := by
  refine ⟨⟨?_, ?_, ?_, ?_, ?_, ?_, ?_⟩, ?_, ?_⟩
  · intro e he
    cases he
  · intro e he
    cases he
  · intro e he
    cases he
  · intro e he
    cases he
  · intro e he
    cases he
  · intro e he
    cases he
  · intro m pda hm
    simp [init_state, kvGet] at hm
  · intro e he
    cases he
  · intro e he
    cases he

theorem reachable_inv {s : AgentState} (h : Reachable s) : AgentInv s := by
  induction h with
  | init => exact AgentInv_init
  | next _ op ih => exact AgentInv_step _ op ih

/-- Over one exposed call, every stored payment record survives and its status
moves only forward. -/
theorem payment_forward_step (s : AgentState) (op : Op) (h : AgentInv s) :
    PayForward s.batch_payments (step s op).batch_payments := by
  obtain ⟨hI, hKp, hKb⟩ := h
  cases op with
  | processPayment k m w a amt ok g =>
      rw [step_payments, apply_op_process]
      exact (pp_master s k m w a amt ok g hI hKp hKb).2.2.2.2
  | createBatch m ok g =>
      have hfresh : kvGet s.batches (m, s.clock) = none := by
        apply kvGet_eq_none_of_ne
        intro e he heq
        have h2 := hKb e he
        rw [heq] at h2
        exact lt_irrefl _ h2
      rw [step_payments, apply_op_create]
      exact (cbm_master s m ok g hI hfresh).2.2.2.2
  | settleBatch b ok g =>
      rw [step_payments, apply_op_settle]
      exact PayForward_settle_batch s b ok g hI

/-! Claim theorems. -/

/-- C1: settle_batch returns false and leaves the state untouched when the
batch is absent, its status is not pending, or the emergency pause is set; and
a second settle_batch call on the same batch id always returns false and
leaves the state exactly as the first call left it, so settlement succeeds at
most once per batch id. -/
theorem settle_batch_guarded_and_idempotent (s : AgentState) (bid : BatchId)
    (ok ok' : Bool) (g g' : Nat) :
    ((kvGet s.batches bid = none ∨
        (∀ batch, kvGet s.batches bid = some batch → batch.status ≠ "pending") ∨
        emergency_paused s = true) →
      settle_batch s bid ok g = (false, s)) ∧
    settle_batch (settle_batch s bid ok g).2 bid ok' g' =
      (false, (settle_batch s bid ok g).2) := by
  constructor
  · intro hguard
    rcases hb : kvGet s.batches bid with _ | batch
    · exact settle_batch_eq_none ok g hb
    · rcases hguard with hnone | hnp | hp
      · rw [hb] at hnone
        cases hnone
      · exact settle_batch_eq_notpending ok g hb (hnp batch hb)
      · by_cases hst : batch.status = "pending"
        · exact settle_batch_eq_paused ok g hb hst hp
        · exact settle_batch_eq_notpending ok g hb hst
  · rcases hb : kvGet s.batches bid with _ | batch
    · rw [settle_batch_eq_none ok g hb]
      exact settle_batch_eq_none ok' g' hb
    · by_cases hst : batch.status = "pending"
      · rcases hp : emergency_paused s with _ | _
        · cases ok
          · rw [settle_batch_eq_failure g hb hst hp]
            have hb2 : kvGet (settle_failure_state s bid batch).batches bid =
                some (settle_failed_batch batch) := by
              rw [sfs_batches]
              exact kvGet_kvInsert_self _ _ _
            exact settle_batch_eq_notpending ok' g' hb2 (by simp [settle_failed_batch])
          · rw [settle_batch_eq_success g hb hst hp]
            have hb2 : kvGet (settle_success_state s bid batch g).batches bid =
                some (settle_final_batch batch bid s.clock g) := by
              rw [sss_batches]
              exact kvGet_kvInsert_self _ _ _
            exact settle_batch_eq_notpending ok' g' hb2 (by simp [settle_final_batch])
        · rw [settle_batch_eq_paused ok g hb hst hp]
          exact settle_batch_eq_paused ok' g' hb hst hp
      · rw [settle_batch_eq_notpending ok g hb hst]
        exact settle_batch_eq_notpending ok' g' hb hst

theorem settle_batch_guarded_and_idempotent_witness :
    settle_batch init_state ("m", 0) true 5 = (false, init_state) :=
  (settle_batch_guarded_and_idempotent init_state ("m", 0) true true 5 5).1 (Or.inl rfl)

/-- C4: on an existing pending batch with the pause off and a failing
connector, settle_batch returns false, stores the batch as failed with the
connector failure message, and leaves every payment record (in particular the
batched payments of this batch) and every escrow account untouched. -/
theorem settle_batch_failure_spec (s : AgentState) (bid : BatchId) (batch : Batch) (g : Nat)
    (hb : kvGet s.batches bid = some batch) (hst : batch.status = "pending")
    (hp : emergency_paused s = false) :
    (settle_batch s bid false g).1 = false ∧
    (settle_batch s bid false g).2.batch_payments = s.batch_payments ∧
    (settle_batch s bid false g).2.escrow_pdas = s.escrow_pdas ∧
    (kvGet (settle_batch s bid false g).2.batches bid).map (fun b => b.status) =
      some "failed" ∧
    (kvGet (settle_batch s bid false g).2.batches bid).map (fun b => b.error_message) =
      some (some "Settlement transaction failed") ∧
    (∀ k p, kvGet s.batch_payments k = some p →
      kvGet (settle_batch s bid false g).2.batch_payments k = some p) := by
  rw [settle_batch_eq_failure g hb hst hp]
  refine ⟨rfl, rfl, rfl, ?_, ?_, ?_⟩
  · rw [sfs_batches, kvGet_kvInsert_self]
    rfl
  · rw [sfs_batches, kvGet_kvInsert_self]
    rfl
  · intro k p hk
    rw [sfs_payments]
    exact hk

/-- Fixture: a state holding one pending batch of 40 for merchant m, its
batched payment, and the funded escrow account. -/
def fixture_pending_batch : AgentState :=
  { merchant_configs := []
    batch_payments := [(0,
      { payment_id := 0, merchant_id := "m", user_wallet := "w", amount := 40,
        currency := "USDC", timestamp := 0, status := "batched", batch_id := some ("m", 0),
        transaction_hash := none, error_message := none })]
    batches := [(("m", 0), new_batch ("m", 0) "m" 40 1 0)]
    escrow_pdas := [("m",
      { pda_address := "p", merchant_id := "m", total_balance := 40, pending_batches := 1,
        created_at := 0, last_settlement := none, is_active := true })]
    settle_config := some DEFAULT_SETTLE_CONFIG
    clock := 1 }

theorem settle_batch_failure_spec_witness :
    (settle_batch fixture_pending_batch ("m", 0) false 7).1 = false ∧
    (kvGet (settle_batch fixture_pending_batch ("m", 0) false 7).2.batches ("m", 0)).map
      (fun b => b.status) = some "failed" ∧
    (settle_batch fixture_pending_batch ("m", 0) false 7).2.batch_payments =
      fixture_pending_batch.batch_payments := by
  have h := settle_batch_failure_spec fixture_pending_batch ("m", 0)
    (new_batch ("m", 0) "m" 40 1 0) 7 (by decide) rfl rfl
  exact ⟨h.1, h.2.2.2.1, h.2.1⟩

/-- C5: the batching trigger returns false when the config is absent, when
batching is disabled, when there are no pending payments, or when the pending
total is below min_batch_amount; with those guards passed it returns true
whenever the total reaches max_batch_amount (any payment count, equality
included), and below the cap it returns true exactly when at least 3 payments
are pending. -/
theorem should_create_batch_spec (s : AgentState) (m : String) :
    (kvGet s.merchant_configs m = none → should_create_batch s m = false) ∧
    ∀ config, kvGet s.merchant_configs m = some config →
      (config.batching_enabled = false → should_create_batch s m = false) ∧
      (pending_payments_for s m = [] → should_create_batch s m = false) ∧
      (pending_total s m < config.min_batch_amount → should_create_batch s m = false) ∧
      (config.batching_enabled = true → pending_payments_for s m ≠ [] →
        config.min_batch_amount ≤ pending_total s m →
        config.max_batch_amount ≤ pending_total s m →
        should_create_batch s m = true) ∧
      (config.batching_enabled = true → pending_payments_for s m ≠ [] →
        config.min_batch_amount ≤ pending_total s m →
        pending_total s m < config.max_batch_amount →
        (should_create_batch s m = true ↔ 3 ≤ (pending_payments_for s m).length)) := by
  constructor
  · intro hc
    simp [should_create_batch, hc]
  · intro config hc
    refine ⟨?_, ?_, ?_, ?_, ?_⟩
    · intro hbe
      simp [should_create_batch, hc, hbe]
    · intro hpe
      rcases hbe : config.batching_enabled with _ | _
      · simp [should_create_batch, hc, hbe]
      · simp [should_create_batch, hc, hbe, hpe]
    · intro hlt
      have hlt' : ((pending_payments_for s m).map (fun p => p.amount)).sum <
          config.min_batch_amount := hlt
      rcases hbe : config.batching_enabled with _ | _
      · simp [should_create_batch, hc, hbe]
      · by_cases hpe : pending_payments_for s m = []
        · simp [should_create_batch, hc, hbe, hpe]
        · have hlen : (pending_payments_for s m).length ≠ 0 := by
            simpa [List.length_eq_zero] using hpe
          simp [should_create_batch, hc, hbe, hlen, hlt']
    · intro hbe hne hmin hmax
      have hlen : (pending_payments_for s m).length ≠ 0 := by
        simpa [List.length_eq_zero] using hne
      have hmin' : ¬(((pending_payments_for s m).map (fun p => p.amount)).sum <
          config.min_batch_amount) := Nat.not_lt.mpr hmin
      have hmax' : config.max_batch_amount ≤
          ((pending_payments_for s m).map (fun p => p.amount)).sum := hmax
      simp [should_create_batch, hc, hbe, hlen, hmin', hmax']
    · intro hbe hne hmin hmax
      have hlen : (pending_payments_for s m).length ≠ 0 := by
        simpa [List.length_eq_zero] using hne
      have hmin' : ¬(((pending_payments_for s m).map (fun p => p.amount)).sum <
          config.min_batch_amount) := Nat.not_lt.mpr hmin
      have hmax' : ¬(config.max_batch_amount ≤
          ((pending_payments_for s m).map (fun p => p.amount)).sum) := Nat.not_le.mpr hmax
      simp [should_create_batch, hc, hbe, hlen, hmin', hmax']

/-- Fixture for scenario E: one pending payment whose amount hits
max_batch_amount exactly. -/
def fixture_exact_cap : AgentState :=
  { merchant_configs := [("m",
      { merchant_id := "m", merchant_address := "addr", api_key := "ouro_business_x",
        tier := "business", batching_enabled := true, batch_frequency := "daily",
        batch_day := none, batch_time := "14:00", min_batch_amount := 50,
        max_batch_amount := 120, auto_settle := false, created_at := 0, updated_at := 0 })]
    batch_payments := [(0, escrow_payment 0 "m" "w" 120 0)]
    batches := []
    escrow_pdas := [("m",
      { pda_address := "p", merchant_id := "m", total_balance := 0, pending_batches := 0,
        created_at := 0, last_settlement := none, is_active := true })]
    settle_config := some DEFAULT_SETTLE_CONFIG
    clock := 1 }

theorem should_create_batch_spec_witness :
    should_create_batch fixture_exact_cap "m" = true :=
  (((should_create_batch_spec fixture_exact_cap "m").2
      { merchant_id := "m", merchant_address := "addr", api_key := "ouro_business_x",
        tier := "business", batching_enabled := true, batch_frequency := "daily",
        batch_day := none, batch_time := "14:00", min_batch_amount := 50,
        max_batch_amount := 120, auto_settle := false, created_at := 0, updated_at := 0 }
      (by decide)).2.2.2.1) rfl (by decide) (by decide) (by decide)

/-- C9 counterexample state: 100 stored batches of which the first 57 are
settled and the remainder failed. -/
def fixture_57_of_100 : AgentState :=
  { merchant_configs := []
    batch_payments := []
    batches := (List.range 100).map (fun i => (("m", i),
      { new_batch ("m", i) "m" 10 1 i with
          status := if i < 57 then "settled" else "failed" }))
    escrow_pdas := []
    settle_config := some DEFAULT_SETTLE_CONFIG
    clock := 100 }

set_option maxHeartbeats 4000000 in
/-- C9 counterexample: with 100 stored batches of which 57 are settled, the
program returns a settlement success rate of 5699 basis points, while the
claim's formula settled_count * 10000 / max(1, total_count) gives 5700: the
source evaluates int((settled / max(1, total)) * 10000) in binary64, the
double nearest 57/100 lies just below 0.57, and the final truncation lands
one basis point short of the exact quotient. -/
theorem metrics_success_rate_float_cex :
    (get_batching_metrics fixture_57_of_100).settlement_success_rate = 5699 ∧
    ((fixture_57_of_100.batches.map (fun e => e.2)).filter
        (fun b => decide (b.status = "settled"))).length * 10000 /
      max 1 (fixture_57_of_100.batches.map (fun e => e.2)).length = 5700 ∧
    (get_batching_metrics fixture_57_of_100).settlement_success_rate ≠
      ((fixture_57_of_100.batches.map (fun e => e.2)).filter
          (fun b => decide (b.status = "settled"))).length * 10000 /
        max 1 (fixture_57_of_100.batches.map (fun e => e.2)).length := by
  refine ⟨by decide, by decide, by decide⟩

/-- C9 (amended): get_batching_metrics is a pure function of the stored state
(it returns only a metrics record, mutating nothing); its average batch size
is total volume over max(1, batch count) by integer division; its settlement
success rate is the binary64 evaluation of int((settled / max(1, total)) *
10000), which can land one basis point below the exact integer formula
settled * 10000 / max(1, total); and with zero stored batches it returns
success rate 0 and average batch size 0 with no division by zero. -/
theorem get_batching_metrics_amended_spec (s : AgentState) :
    (get_batching_metrics s).average_batch_size =
      ((s.batches.map (fun e => e.2)).map (fun b => b.total_amount)).sum /
        max 1 (s.batches.map (fun e => e.2)).length ∧
    (get_batching_metrics s).settlement_success_rate =
      py_success_rate_bp
        ((s.batches.map (fun e => e.2)).filter
          (fun b => decide (b.status = "settled"))).length
        (s.batches.map (fun e => e.2)).length ∧
    (s.batches = [] →
      (get_batching_metrics s).settlement_success_rate = 0 ∧
      (get_batching_metrics s).average_batch_size = 0) := by
  refine ⟨rfl, rfl, ?_⟩
  intro h
  constructor <;> simp [get_batching_metrics, h, py_success_rate_bp, fpRound, fpMulNat, fpToNat]

theorem get_batching_metrics_amended_spec_witness :
    (get_batching_metrics init_state).settlement_success_rate = 0 ∧
    (get_batching_metrics init_state).average_batch_size = 0 :=
  (get_batching_metrics_amended_spec init_state).2.2 rfl

/-- C10: update_merchant_config returns false and mutates nothing when the
merchant has no config; with a config stored it returns true, rewrites only
the six updatable fields plus updated_at, keeps merchant_id (the storage key),
merchant_address, api_key, tier, batch_day and created_at, leaves every other
merchant's config in place, and does not touch payments, batches, escrow
accounts or the settlement config. -/
theorem update_merchant_config_spec (s : AgentState) (m : String) (cd : ConfigUpdate) :
    (kvGet s.merchant_configs m = none → update_merchant_config s m cd = (false, s)) ∧
    ∀ c, kvGet s.merchant_configs m = some c →
      (update_merchant_config s m cd).1 = true ∧
      (update_merchant_config s m cd).2.batch_payments = s.batch_payments ∧
      (update_merchant_config s m cd).2.batches = s.batches ∧
      (update_merchant_config s m cd).2.escrow_pdas = s.escrow_pdas ∧
      (update_merchant_config s m cd).2.settle_config = s.settle_config ∧
      (∀ m0, m0 ≠ m → kvGet (update_merchant_config s m cd).2.merchant_configs m0 =
        kvGet s.merchant_configs m0) ∧
      ∃ c', kvGet (update_merchant_config s m cd).2.merchant_configs m = some c' ∧
        c'.merchant_id = m ∧ c'.merchant_address = c.merchant_address ∧
        c'.api_key = c.api_key ∧ c'.tier = c.tier ∧ c'.batch_day = c.batch_day ∧
        c'.created_at = c.created_at ∧
        c'.batching_enabled = cd.batching_enabled.getD c.batching_enabled ∧
        c'.batch_frequency = cd.batch_frequency.getD c.batch_frequency ∧
        c'.batch_time = cd.batch_time.getD c.batch_time ∧
        c'.min_batch_amount = cd.min_batch_amount.getD c.min_batch_amount ∧
        c'.max_batch_amount = cd.max_batch_amount.getD c.max_batch_amount ∧
        c'.auto_settle = cd.auto_settle.getD c.auto_settle ∧
        c'.updated_at = s.clock := by
  constructor
  · intro hc
    simp [update_merchant_config, hc]
  · intro c hc
    have heq : update_merchant_config s m cd = (true,
        { s with merchant_configs :=
          kvInsert s.merchant_configs m (updated_config m c cd s.clock) }) := by
      simp [update_merchant_config, hc]
    rw [heq]
    refine ⟨rfl, rfl, rfl, rfl, rfl, ?_, ?_⟩
    · intro m0 hm0
      exact kvGet_kvInsert_ne _ _ hm0
    · refine ⟨updated_config m c cd s.clock, kvGet_kvInsert_self _ _ _, rfl, rfl, rfl, rfl,
        rfl, rfl, rfl, rfl, rfl, rfl, rfl, rfl, rfl⟩

/-- Fixture: a stored merchant config together with one record of every other
collection, to exhibit the frame property of config updates. -/
def fixture_config_state : AgentState :=
  { merchant_configs := [("m",
      { merchant_id := "m", merchant_address := "addr", api_key := "ouro_business_x",
        tier := "business", batching_enabled := true, batch_frequency := "daily",
        batch_day := none, batch_time := "14:00", min_batch_amount := 100,
        max_batch_amount := 1000, auto_settle := true, created_at := 0, updated_at := 0 })]
    batch_payments := [(0, escrow_payment 0 "m" "w" 40 0)]
    batches := []
    escrow_pdas := [("m",
      { pda_address := "p", merchant_id := "m", total_balance := 0, pending_batches := 0,
        created_at := 0, last_settlement := none, is_active := true })]
    settle_config := some DEFAULT_SETTLE_CONFIG
    clock := 2 }

theorem update_merchant_config_spec_witness :
    (update_merchant_config fixture_config_state "m"
      { batching_enabled := none, batch_frequency := none, batch_time := none,
        min_batch_amount := some 7, max_batch_amount := none, auto_settle := some false }).1
      = true ∧
    (update_merchant_config fixture_config_state "m"
      { batching_enabled := none, batch_frequency := none, batch_time := none,
        min_batch_amount := some 7, max_batch_amount := none, auto_settle := some false }).2.batch_payments
      = fixture_config_state.batch_payments := by
  have h := (update_merchant_config_spec fixture_config_state "m"
      { batching_enabled := none, batch_frequency := none, batch_time := none,
        min_batch_amount := some 7, max_batch_amount := none, auto_settle := some false }).2
      { merchant_id := "m", merchant_address := "addr", api_key := "ouro_business_x",
        tier := "business", batching_enabled := true, batch_frequency := "daily",
        batch_day := none, batch_time := "14:00", min_batch_amount := 100,
        max_batch_amount := 1000, auto_settle := true, created_at := 0, updated_at := 0 }
      (by decide)
  exact ⟨h.1, h.2.1⟩

/-! Concrete traces used by the remaining claims. -/

/-- Business-tier payment of 40 into an empty system (no batch is triggered:
40 is below the default minimum). -/
def trace_pay40 : Op := Op.processPayment "ouro_business_x" "m" "w" "addr" 40 true 0

/-- State after the single 40 payment. -/
def state_pay40 : AgentState := step init_state trace_pay40

/-- Batch creation for merchant m with a failing connector on the auto-settle
(the default config has auto_settle true). -/
def trace_failed_batch : Op := Op.createBatch "m" false 0

/-- State after the payment and the failed settlement. -/
def state_failed_batch : AgentState := step state_pay40 trace_failed_batch

/-- C3 fixture: raw call chain (clock not advanced between calls): business
payment of 40, auto_settle switched off, batch created and left Pending. -/
def c3_state : AgentState :=
  (create_batch_for_merchant
    ((update_merchant_config
      ((process_payment init_state "ouro_business_x" "m" "w" "addr" 40 true 0).2)
      "m"
      { batching_enabled := none, batch_frequency := none, batch_time := none,
        min_batch_amount := none, max_batch_amount := none, auto_settle := some false }).2)
    "m" true 0).2

/-- C3: on a successful settlement of the pending batch of c3_state the call
returns true, the batch is stored as settled with tx and cost fields
populated, its payment is settled carrying the batch tx reference, and the
balance is debited — but the stored batch's settled_at and the escrow
account's last_settlement are none, not the settlement time: the success
branch rebuilds both records from the stale pre-processing snapshot whose
settled_at was still unset.  The claim says settled_at and last_settlement_at
are set to the current time; the code contradicts its own processing-step
write (which had just stored settled_at=now) by overwriting it. -/
theorem settle_success_leaves_settled_at_none :
    (settle_batch c3_state ("m", 0) true 200000).1 = true ∧
    (kvGet (settle_batch c3_state ("m", 0) true 200000).2.batches ("m", 0)).map
      (fun b => b.status) = some "settled" ∧
    (kvGet (settle_batch c3_state ("m", 0) true 200000).2.batches ("m", 0)).map
      (fun b => b.settled_at) = some none ∧
    (kvGet (settle_batch c3_state ("m", 0) true 200000).2.batches ("m", 0)).map
      (fun b => b.gas_used) = some (some 200000) ∧
    (kvGet (settle_batch c3_state ("m", 0) true 200000).2.batches ("m", 0)).map
      (fun b => b.gas_cost) = some (some 5000000) ∧
    (kvGet (settle_batch c3_state ("m", 0) true 200000).2.batches ("m", 0)).map
      (fun b => b.transaction_hash) = some (some "settle_tx_m_0") ∧
    (kvGet (settle_batch c3_state ("m", 0) true 200000).2.batch_payments 0).map
      (fun p => p.status) = some "settled" ∧
    (kvGet (settle_batch c3_state ("m", 0) true 200000).2.batch_payments 0).map
      (fun p => p.transaction_hash) = some (some "settle_tx_m_0") ∧
    get_escrow_balance (settle_batch c3_state ("m", 0) true 200000).2 "m" = 0 ∧
    (kvGet (settle_batch c3_state ("m", 0) true 200000).2.escrow_pdas "m").map
      (fun p => p.last_settlement) = some none := by
  decide

/-- C2 counterexample: in the reachable state after one escrowed payment of 40
and a batch creation whose auto-settlement fails, the merchant's escrow
balance is 40 while the total over their Pending and Processing batches is 0
(the failed batch left Pending without the balance being released), so the
claimed equality fails. -/
theorem escrow_balance_pending_processing_cex :
    Reachable state_failed_batch ∧
    get_escrow_balance state_failed_batch "m" = 40 ∧
    committed_pending_processing state_failed_batch "m" = 0 ∧
    get_escrow_balance state_failed_batch "m" ≠
      committed_pending_processing state_failed_batch "m" :=
  ⟨Reachable.next (Reachable.next Reachable.init trace_pay40) trace_failed_batch,
    by decide, by decide, by decide⟩

/-- C2 (amended): for every reachable state, a merchant's escrow balance
equals the sum of total_amount over that merchant's batches whose status is
Pending, Processing or Failed — funds are released from the balance only by a
successful settlement, so a failed batch stays committed.  Balances are
unsigned (the source clamps the debit at zero), so the balance is never
negative; it grows only at batch creation and shrinks only at successful
settlement. -/
theorem escrow_balance_eq_unsettled_committed (s : AgentState) (h : Reachable s)
    (m : String) (pda : EscrowPDA) (hm : kvGet s.escrow_pdas m = some pda) :
    pda.total_balance = committed_unsettled s m := by
  have hInv := reachable_inv h
  have h1 := hInv.1.balance_eq m pda hm
  rw [h1]
  simp only [committed_open, committed_unsettled]
  apply kvSumBy_congr
  intro e he
  have hst := hInv.1.batch_status_ok e he
  rcases hst with h2 | h2 | h2 | h2 <;> by_cases hm2 : e.2.merchant_id = m <;> simp [h2, hm2]

/-- The escrow PDA created by the single 40 payment of state_pay40. -/
def pda_pay40 : EscrowPDA :=
  { pda_address := "escrow_pda_m_0", merchant_id := "m", total_balance := 0,
    pending_batches := 0, created_at := 0, last_settlement := none, is_active := true }

theorem escrow_balance_eq_unsettled_committed_witness :
    kvGet state_pay40.escrow_pdas "m" = some pda_pay40 ∧
    pda_pay40.total_balance = committed_unsettled state_pay40 "m" :=
  ⟨by decide, escrow_balance_eq_unsettled_committed state_pay40
      (Reachable.next Reachable.init trace_pay40) "m" pda_pay40 (by decide)⟩

/-- Batch creation with a successful connector for merchant m (auto_settle is
true in the default config, so the call also settles the batch). -/
def trace_settled_batch : Op := Op.createBatch "m" true 200000

/-- C7 counterexample: in the reachable state after one escrowed payment, the
payment is Pending; one create_batch_for_merchant call (batching plus the
synchronous auto-settlement) leaves that same payment Settled, so a single
operation does move a Pending payment to Settled outside the direct-settlement
creation path. -/
theorem payment_pending_to_settled_one_call_cex :
    Reachable state_pay40 ∧
    (kvGet state_pay40.batch_payments 0).map (fun p => p.status) = some "pending" ∧
    (kvGet (step state_pay40 trace_settled_batch).batch_payments 0).map
      (fun p => p.status) = some "settled" :=
  ⟨Reachable.next Reachable.init trace_pay40, by decide, by decide⟩

/-- C7 (amended): in every reachable state each stored payment's status lies
in the four-status domain (this agent only ever stores pending, batched or
settled), and across any one further call the payment record survives with its
status moved only forward along Pending to Batched to Settled: unchanged, one
step, or both steps inside a single call when batch creation auto-settles.  No
call moves a status backwards, none marks a payment Failed, and the only
Settled records without a Batched past are the ones created settled by the
free-tier direct path. -/
theorem payment_status_forward (s : AgentState) (h : Reachable s) (op : Op)
    (k : PaymentKey) (p : BatchPayment) (hp : kvGet s.batch_payments k = some p) :
    paymentStatusSet p.status ∧
    ∃ p', kvGet (step s op).batch_payments k = some p' ∧
      statusForward p.status p'.status := by
  have hInv := reachable_inv h
  exact ⟨hInv.1.status_ok (k, p) (kvGet_mem hp),
    payment_forward_step s op hInv k p hp⟩

theorem payment_status_forward_witness :
    paymentStatusSet (escrow_payment 0 "m" "w" 40 0).status ∧
    ∃ p', kvGet (step state_pay40 trace_settled_batch).batch_payments 0 = some p' ∧
      statusForward (escrow_payment 0 "m" "w" 40 0).status p'.status :=
  payment_status_forward state_pay40 (Reachable.next Reachable.init trace_pay40)
    trace_settled_batch 0 (escrow_payment 0 "m" "w" 40 0) (by decide)


theorem kvSumBy_kvMapValues {κ α : Type} (f : α → Nat) (g : α → α) (l : List (κ × α)) :
    kvSumBy f (kvMapValues g l) = kvSumBy (fun v => f (g v)) l := by
  induction l with
  | nil => rfl
  | cons e rest ih =>
      simp only [kvMapValues, List.map_cons, kvSumBy_cons] at ih ⊢
      rw [ih]

/-- Sum over the filtered pending payments equals the indicator sum over the
whole storage. -/
theorem pending_sum_eq_kvSumBy (l : List (PaymentKey × BatchPayment)) (m : String) :
    (((l.filter (fun e => decide (e.2.merchant_id = m ∧ e.2.status = "pending"))).map
      (fun e => e.2)).map (fun p => p.amount)).sum =
    kvSumBy (fun p => if p.merchant_id = m ∧ p.status = "pending" then p.amount else 0) l := by
  induction l with
  | nil => rfl
  | cons e rest ih =>
      by_cases hc : e.2.merchant_id = m ∧ e.2.status = "pending"
      · rw [List.filter_cons_of_pos (by simpa using hc)]
        simp only [List.map_cons, List.sum_cons, kvSumBy_cons]
        rw [if_pos hc, ih]
      · rw [List.filter_cons_of_neg (by simpa using hc)]
        simp only [kvSumBy_cons]
        rw [if_neg hc, ih]
        omega

/-- C6: the batch created for a merchant with a config and nonempty pending
payments stores total_amount equal to the pending sum, payment_count equal to
the pending count, and status Pending; every previously Pending payment of
the merchant is now Batched with its batch_id pointing at the new batch; the
batch total equals the sum of amounts over payments whose batch_id is the new
batch's id immediately after the creation step; and with auto_settle off the
full create_batch_for_merchant call ends exactly in that creation state
(with auto_settle on, the call continues into settlement of this batch). -/
theorem create_batch_spec (s : AgentState) (m : String) (config : MerchantConfig)
    (hc : kvGet s.merchant_configs m = some config)
    (hne : pending_payments_for s m ≠ [])
    (href : ∀ e ∈ s.batch_payments, e.2.batch_id ≠ some (m, s.clock)) :
    (kvGet (create_batch_apply s m).2.batches (m, s.clock)).map (fun b => b.total_amount) =
      some (pending_total s m) ∧
    (kvGet (create_batch_apply s m).2.batches (m, s.clock)).map (fun b => b.payment_count) =
      some (pending_payments_for s m).length ∧
    (kvGet (create_batch_apply s m).2.batches (m, s.clock)).map (fun b => b.status) =
      some "pending" ∧
    (∀ k p, kvGet s.batch_payments k = some p → p.merchant_id = m → p.status = "pending" →
      kvGet (create_batch_apply s m).2.batch_payments k =
        some { p with status := "batched", batch_id := some (m, s.clock) }) ∧
    pending_total s m =
      kvSumBy (fun p => if p.batch_id = some (m, s.clock) then p.amount else 0)
        (create_batch_apply s m).2.batch_payments ∧
    (∀ ok g, config.auto_settle = false →
      (create_batch_for_merchant s m ok g).2 = (create_batch_apply s m).2) := by
  have hlen : ¬(pending_payments_for s m).length = 0 := by
    simpa [List.length_eq_zero] using hne
  refine ⟨?_, ?_, ?_, ?_, ?_, ?_⟩
  · rw [cba_batches, kvGet_kvInsert_self]
    rfl
  · rw [cba_batches, kvGet_kvInsert_self]
    rfl
  · rw [cba_batches, kvGet_kvInsert_self]
    rfl
  · intro k p hk hm hp
    rw [cba_payments, kvGet_kvMapValues, hk]
    simp [hm, hp]
  · have h1 : kvSumBy (fun p => if p.batch_id = some (m, s.clock) then p.amount else 0)
        (create_batch_apply s m).2.batch_payments =
        kvSumBy (fun p =>
          (fun q => if q.batch_id = some (m, s.clock) then q.amount else 0)
            (if p.merchant_id = m ∧ p.status = "pending" then
              { p with status := "batched", batch_id := some (m, s.clock) }
            else p)) s.batch_payments := by
      rw [cba_payments]
      exact kvSumBy_kvMapValues _ _ _
    have h2 : kvSumBy (fun p =>
          (fun q => if q.batch_id = some (m, s.clock) then q.amount else 0)
            (if p.merchant_id = m ∧ p.status = "pending" then
              { p with status := "batched", batch_id := some (m, s.clock) }
            else p)) s.batch_payments =
        kvSumBy (fun p => if p.merchant_id = m ∧ p.status = "pending" then p.amount else 0)
          s.batch_payments := by
      apply kvSumBy_congr
      intro e he
      by_cases hcond : e.2.merchant_id = m ∧ e.2.status = "pending"
      · simp [hcond]
      · simp [hcond, href e he]
    rw [h1, h2]
    exact pending_sum_eq_kvSumBy s.batch_payments m
  · intro ok g ha
    rw [cbm_eq_manual ok g hc hlen ha]

/-- Scenario A fixture: config with min_batch_amount 100, auto_settle off,
three pending payments of 40, the escrow PDA present. -/
def fixture_scenario_a : AgentState :=
  { merchant_configs := [("m",
      { merchant_id := "m", merchant_address := "addr", api_key := "ouro_business_x",
        tier := "business", batching_enabled := true, batch_frequency := "daily",
        batch_day := none, batch_time := "14:00", min_batch_amount := 100,
        max_batch_amount := 100000, auto_settle := false, created_at := 0, updated_at := 0 })]
    batch_payments := [(0, escrow_payment 0 "m" "w" 40 0), (1, escrow_payment 1 "m" "w" 40 1),
      (2, escrow_payment 2 "m" "w" 40 2)]
    batches := []
    escrow_pdas := [("m",
      { pda_address := "p", merchant_id := "m", total_balance := 0, pending_batches := 0,
        created_at := 0, last_settlement := none, is_active := true })]
    settle_config := some DEFAULT_SETTLE_CONFIG
    clock := 3 }

theorem create_batch_spec_witness :
    (kvGet (create_batch_apply fixture_scenario_a "m").2.batches
      ("m", fixture_scenario_a.clock)).map (fun b => b.total_amount) = some 120 ∧
    (kvGet (create_batch_apply fixture_scenario_a "m").2.batches
      ("m", fixture_scenario_a.clock)).map (fun b => b.payment_count) = some 3 ∧
    (kvGet (create_batch_apply fixture_scenario_a "m").2.batches
      ("m", fixture_scenario_a.clock)).map (fun b => b.status) = some "pending" := by
  have h := create_batch_spec fixture_scenario_a "m"
    { merchant_id := "m", merchant_address := "addr", api_key := "ouro_business_x",
      tier := "business", batching_enabled := true, batch_frequency := "daily",
      batch_day := none, batch_time := "14:00", min_batch_amount := 100,
      max_batch_amount := 100000, auto_settle := false, created_at := 0, updated_at := 0 }
    (by decide) (by decide) (by decide)
  refine ⟨?_, ?_, h.2.2.1⟩
  · rw [h.1]
    decide
  · rw [h.2.1]
    decide

/-- C8 counterexample: a free-tier SubmitPayment on the empty system does
change the payment storage — it inserts the payment as a Settled record — so
the claim that the pending-payment storage is unchanged by the call fails. -/
theorem free_tier_payment_storage_changes_cex :
    (process_payment init_state "ouro_free_x" "m" "w" "a" 5 true 0).2.batch_payments ≠
      init_state.batch_payments ∧
    (process_payment init_state "ouro_free_x" "m" "w" "a" 5 true 0).2.batch_payments.map
      (fun e => e.2.status) = ["settled"] := by
  constructor
  · decide
  · decide

/-- C8 (amended): a free-tier classified call returns a direct-settled result,
creates no escrow account and no batch, and adds no Pending payment — but it
does record the payment itself, inserted with status Settled, in the payment
storage (any stored payment that is Pending afterwards was already stored
before the call). -/
theorem process_payment_free_tier_spec (s : AgentState) (k m w a : String) (amt : Nat)
    (ok : Bool) (g : Nat) (htier : detect_api_tier k = "free") :
    (process_payment s k m w a amt ok g).1 =
      "direct_settled_payment_" ++ toString s.clock ∧
    (process_payment s k m w a amt ok g).2.escrow_pdas = s.escrow_pdas ∧
    (process_payment s k m w a amt ok g).2.batches = s.batches ∧
    (process_payment s k m w a amt ok g).2.batch_payments =
      kvInsert s.batch_payments s.clock (direct_payment s.clock m w amt s.clock) ∧
    (direct_payment s.clock m w amt s.clock).status = "settled" ∧
    (∀ k0 p, kvGet (process_payment s k m w a amt ok g).2.batch_payments k0 = some p →
      p.status = "pending" → kvGet s.batch_payments k0 = some p) := by
  have hesc : should_use_escrow k = false := by
    simp [should_use_escrow, htier]
  rw [pp_eq_direct amt ok g hesc]
  have hpay : (insert_payment (ensure_merchant_config s m a k) s.clock
      (direct_payment s.clock m w amt s.clock)).batch_payments =
      kvInsert s.batch_payments s.clock (direct_payment s.clock m w amt s.clock) := by
    simp only [insert_payment_payments, emc_payments]
  refine ⟨rfl, ?_, ?_, hpay, rfl, ?_⟩
  · simp only [insert_payment_pdas, emc_pdas]
  · simp only [insert_payment_batches, emc_batches]
  · intro k0 p hk0 hpend
    rw [hpay] at hk0
    by_cases hk : k0 = s.clock
    · rw [hk, kvGet_kvInsert_self] at hk0
      have hpp : p = direct_payment s.clock m w amt s.clock :=
        (Option.some.injEq _ _).mp hk0.symm
      rw [hpp] at hpend
      simp [direct_payment] at hpend
    · rw [kvGet_kvInsert_ne _ _ hk] at hk0
      exact hk0

theorem process_payment_free_tier_spec_witness :
    (process_payment init_state "ouro_free_x" "m" "w" "a" 5 true 0).1 =
      "direct_settled_payment_" ++ toString init_state.clock ∧
    (process_payment init_state "ouro_free_x" "m" "w" "a" 5 true 0).2.escrow_pdas =
      init_state.escrow_pdas :=
  ⟨(process_payment_free_tier_spec init_state "ouro_free_x" "m" "w" "a" 5 true 0
      (by decide)).1,
   (process_payment_free_tier_spec init_state "ouro_free_x" "m" "w" "a" 5 true 0
      (by decide)).2.1⟩
